import Mathlib

/-!
# Book service: validation engine and dual-indexed in-memory store

A shallow embedding of the Go packages `internal/domain` (record construction
and field validation), `internal/repository` (the in-memory store with a
primary index by identifier and a secondary index by ISBN) and
`internal/service` (the calls that sequence them), followed by the properties
proved about them.

Modelling conventions.

* A Go `string` holding valid UTF-8 is modelled by the list of its Unicode code
  points (`GoString`); Go's `len` is the UTF-8 byte count (`len`).
* A Go `error` result is an `Option DomainError` (`none` is `nil`); a
  `(*Book, error)` result of the constructor is an `Except DomainError Book`.
* `time.Now()` and `uuid.New()` are inputs of the functions that call them.
* Records handed around by pointer (`*domain.Book`) live in an explicit heap;
  the store's primary index holds addresses, exactly as the Go map holds
  pointers. Pointer arguments are non-nil, and the index never holds `nil`
  (the methods only ever store `&bookCopy`).
* A method of the store runs under the store's mutex, so each call is one
  atomic state transition.
* The order of a `range` loop over a map is an input of the loop (`seed`).
-/

namespace Solid

/-! ## Strings -/

/-- A Go string, as the sequence of its Unicode code points. -/
abbrev GoString := List Char

/-- Go's built-in `len` on a string: the number of bytes of its UTF-8 encoding. -/
def len (s : GoString) : Nat := (s.map Char.utf8Size).sum

/-- Go's `unicode.IsSpace`: in Latin-1 the characters tab, line feed, vertical tab,
form feed, carriage return, space, U+0085 and U+00A0; above Latin-1 the code points
with the White_Space property. -/
def unicodeIsSpace (r : Char) : Bool :=
  let n := r.toNat
  if n ≤ 0xFF then
    n == 0x09 || n == 0x0A || n == 0x0B || n == 0x0C || n == 0x0D || n == 0x20
      || n == 0x85 || n == 0xA0
  else
    n == 0x1680 || (0x2000 ≤ n && n ≤ 0x200A) || n == 0x2028 || n == 0x2029
      || n == 0x202F || n == 0x205F || n == 0x3000

/-- Go's `strings.TrimSpace`: all leading and all trailing white space removed. -/
def stringsTrimSpace (s : GoString) : GoString :=
  (s.dropWhile unicodeIsSpace).rdropWhile unicodeIsSpace

/-- Go's `strings.ReplaceAll(s, old, new)` for a one-character `old`: every occurrence
of `old` is replaced by `new`. -/
def stringsReplaceAll : GoString → Char → GoString → GoString
  | [], _, _ => []
  | c :: cs, old, new => (if c = old then new else [c]) ++ stringsReplaceAll cs old new

/-! ## Regular expressions of the shape used by the package

`isbnRegex` is `^(?:\d{10}|\d{13}|[\d-]{13,17})$`: anchored at both ends, an
alternation whose branches are each one character class under a bounded repetition. -/

/-- The class `\d` of Go's `regexp` package: the ASCII digits `0` to `9`. -/
def perlDigit (c : Char) : Bool := 0x30 ≤ c.toNat && c.toNat ≤ 0x39

/-- The class `[\d-]`: an ASCII digit or a hyphen. -/
def perlDigitOrHyphen (c : Char) : Bool := perlDigit c || c == '-'

/-- One branch `cls{min,max}` of an anchored alternation. -/
structure ClassRepeat where
  cls : Char → Bool
  min : Nat
  max : Nat

/-- The whole text is `min` to `max` characters, each in the class. -/
def ClassRepeat.MatchString (r : ClassRepeat) (s : GoString) : Bool :=
  decide (r.min ≤ s.length) && decide (s.length ≤ r.max) && s.all r.cls

/-- An anchored alternation `^(?:b1|b2|...)$`. -/
abbrev Regexp := List ClassRepeat

/-- Go's `(*Regexp).MatchString` for an anchored alternation. -/
def Regexp.MatchString (re : Regexp) (s : GoString) : Bool :=
  re.any fun r => r.MatchString s

/-! ## Package `domain` -/

def MaxTitleLength : Nat := 200
def MaxAuthorLength : Nat := 100
def MaxISBNLength : Nat := 17

/-- The pattern `^(?:\d{10}|\d{13}|[\d-]{13,17})$`. -/
def isbnRegex : Regexp :=
  [⟨perlDigit, 10, 10⟩, ⟨perlDigit, 13, 13⟩, ⟨perlDigitOrHyphen, 13, 17⟩]

/-- Go's `time.Time`, as an instant on the clock. -/
abbrev Time := Nat

/-- The struct `domain.DomainError`. -/
structure DomainError where
  Code : GoString
  Message : GoString
  StatusCode : Nat
  Err : Option GoString
  deriving DecidableEq, Repr

def NewDomainError (code message : GoString) (statusCode : Nat) : DomainError :=
  { Code := code, Message := message, StatusCode := statusCode, Err := none }

def ErrBookNotFound : DomainError :=
  NewDomainError "BOOK_NOT_FOUND".toList "book not found".toList 404

def ErrBookAlreadyExists : DomainError :=
  NewDomainError "BOOK_ALREADY_EXISTS".toList "book already exists".toList 409

def ErrInvalidInput : DomainError :=
  NewDomainError "INVALID_INPUT".toList "invalid input".toList 400

def DomainError.WithMessage (e : DomainError) (msg : GoString) : DomainError :=
  { Code := e.Code, Message := msg, StatusCode := e.StatusCode, Err := e.Err }

/-- The struct `domain.Book`. -/
structure Book where
  ID : GoString
  Title : GoString
  Author : GoString
  ISBN : GoString
  CreatedAt : Time
  UpdatedAt : Time
  deriving DecidableEq, Repr

def normalizeISBN (isbn : GoString) : GoString :=
  stringsReplaceAll (stringsTrimSpace isbn) '-' []

def validateTitle (title : GoString) : Option DomainError :=
  let title := stringsTrimSpace title
  if title = [] then
    some (ErrInvalidInput.WithMessage "title cannot be empty".toList)
  else if len title > MaxTitleLength then
    some (ErrInvalidInput.WithMessage "title exceeds maximum length".toList)
  else none

def validateAuthor (author : GoString) : Option DomainError :=
  let author := stringsTrimSpace author
  if author = [] then
    some (ErrInvalidInput.WithMessage "author cannot be empty".toList)
  else if len author > MaxAuthorLength then
    some (ErrInvalidInput.WithMessage "author exceeds maximum length".toList)
  else none

def validateISBN (isbn : GoString) : Option DomainError :=
  let isbn := stringsTrimSpace isbn
  if isbn = [] then
    some (ErrInvalidInput.WithMessage "isbn cannot be empty".toList)
  else if !isbnRegex.MatchString isbn then
    some (ErrInvalidInput.WithMessage "isbn format is invalid".toList)
  else
    let normalized := normalizeISBN isbn
    if len normalized ≠ 10 ∧ len normalized ≠ 13 then
      some (ErrInvalidInput.WithMessage "isbn must be 10 or 13 digits".toList)
    else none

def validateBook (title author isbn : GoString) : Option DomainError :=
  match validateTitle title with
  | some err => some err
  | none =>
    match validateAuthor author with
    | some err => some err
    | none =>
      match validateISBN isbn with
      | some err => some err
      | none => none

/-- The constructor `domain.NewBook`; `now` is the reading of `time.Now()`. The result
is the record the returned pointer refers to; its `ID` is the zero value. -/
def NewBook (now : Time) (title author isbn : GoString) : Except DomainError Book :=
  match validateBook title author isbn with
  | some err => .error err
  | none =>
    .ok { ID := [], Title := stringsTrimSpace title, Author := stringsTrimSpace author,
          ISBN := normalizeISBN isbn, CreatedAt := now, UpdatedAt := now }

/-! ## Package `uuid` (github.com/google/uuid) -/

/-- The type `uuid.UUID`, an array of sixteen bytes. -/
structure UUID where
  bytes : List (Fin 256)
  size : bytes.length = 16

/-- The digits of `encoding/hex`. -/
def hextable : GoString := "0123456789abcdef".toList

/-- Go's `hex.Encode`: two lower-case hexadecimal digits per byte. -/
def hexEncode : List (Fin 256) → GoString
  | [] => []
  | v :: src => hextable.getD (v.val / 16) '0' :: hextable.getD (v.val % 16) '0' :: hexEncode src

/-- The method `UUID.String`: the form `xxxxxxxx-xxxx-xxxx-xxxx-xxxxxxxxxxxx`. -/
def UUID.String (u : UUID) : GoString :=
  hexEncode (u.bytes.take 4) ++ '-' :: hexEncode ((u.bytes.drop 4).take 2)
    ++ '-' :: hexEncode ((u.bytes.drop 6).take 2)
    ++ '-' :: hexEncode ((u.bytes.drop 8).take 2)
    ++ '-' :: hexEncode (u.bytes.drop 10)

/-! ## Go maps and the heap of records -/

/-- A Go `map[string]V`, as the list of its entries. The order of the entries carries no
meaning; `set` and `delete` keep at most one entry per key. -/
structure GoMap (V : Type) where
  entries : List (GoString × V)
  deriving DecidableEq, Repr

/-- The lookup `v, ok := m[k]`; `none` when `ok` is false. -/
def GoMap.get {V : Type} (m : GoMap V) (k : GoString) : Option V :=
  (m.entries.find? fun e => decide (e.1 = k)).map Prod.snd

/-- The statement `delete(m, k)`. -/
def GoMap.delete {V : Type} (m : GoMap V) (k : GoString) : GoMap V :=
  ⟨m.entries.filter fun e => decide (e.1 ≠ k)⟩

/-- The assignment `m[k] = v`. -/
def GoMap.set {V : Type} (m : GoMap V) (k : GoString) (v : V) : GoMap V :=
  ⟨(k, v) :: (m.delete k).entries⟩

/-- Go's `len(m)`. -/
def GoMap.len {V : Type} (m : GoMap V) : Nat := m.entries.length

/-- The keys of the map. -/
def GoMap.keys {V : Type} (m : GoMap V) : List GoString := m.entries.map Prod.fst

/-- The result of `make(map[string]V)`. -/
def GoMap.make {V : Type} : GoMap V := ⟨[]⟩

/-- The address of a `domain.Book` value, that is a non-nil `*domain.Book`. -/
abbrev Addr := Nat

/-- The `domain.Book` values that pointers refer to, by address. -/
abbrev Heap := List Book

/-- The zero value of `domain.Book`. -/
def zeroBook : Book :=
  { ID := [], Title := [], Author := [], ISBN := [], CreatedAt := 0, UpdatedAt := 0 }

/-- A pointer to a live record. -/
abbrev Heap.valid (h : Heap) (a : Addr) : Prop := a < h.length

/-- The value `*a`. Every pointer a Go program holds is valid; at other addresses the
model reads the zero value. -/
def Heap.read (h : Heap) (a : Addr) : Book := h.getD a zeroBook

/-- The assignment `*a = b`. -/
def Heap.write (h : Heap) (a : Addr) (b : Book) : Heap := h.set a b

/-- A new variable holding `b`: its address, and the heap with it. -/
def Heap.alloc (h : Heap) (b : Book) : Addr × Heap := (h.length, h ++ [b])

/-! ## Package `repository` -/

/-- The struct `repository.InMemoryBookRepository`: the primary index `books` from
identifier to record pointer, and the secondary index `isbn` from ISBN to identifier. The
mutex `mu` makes each method one atomic step and has no other content. -/
structure InMemoryBookRepository where
  books : GoMap Addr
  isbn : GoMap GoString
  deriving DecidableEq, Repr

def NewInMemoryBookRepository : InMemoryBookRepository :=
  { books := GoMap.make, isbn := GoMap.make }

/-- What a mutating method leaves behind: its `error` result, the repository and the heap. -/
structure Outcome where
  err : Option DomainError
  r : InMemoryBookRepository
  heap : Heap
  deriving DecidableEq, Repr

/-- The method `Create`. `book` is the pointer argument and `u` the value of `uuid.New()`. -/
def InMemoryBookRepository.Create (r : InMemoryBookRepository) (h : Heap) (book : Addr)
    (u : UUID) : Outcome :=
  if (r.isbn.get (h.read book).ISBN).isSome then
    { err := some ErrBookAlreadyExists, r := r, heap := h }
  else
    let h1 := h.write book { h.read book with ID := u.String }
    let bookCopy := h1.read book
    let (p, h2) := h1.alloc bookCopy
    let books := r.books.set (h1.read book).ID p
    let isbn := r.isbn.set (h1.read book).ISBN (h1.read book).ID
    { err := none, r := { books := books, isbn := isbn }, heap := h2 }

/-- The method `FindByID`: the stored pointer itself, or `nil` and `ErrBookNotFound`. -/
def InMemoryBookRepository.FindByID (r : InMemoryBookRepository) (id : GoString) :
    Option Addr × Option DomainError :=
  match r.books.get id with
  | none => (none, some ErrBookNotFound)
  | some book => (some book, none)

/-- The method `FindByISBN`: `r.books[id]` is the stored pointer, or `nil` when `id` is
not a key of `books`. -/
def InMemoryBookRepository.FindByISBN (r : InMemoryBookRepository) (isbn : GoString) :
    Option Addr × Option DomainError :=
  match r.isbn.get isbn with
  | none => (none, some ErrBookNotFound)
  | some id => (r.books.get id, none)

/-- The method `Update`. -/
def InMemoryBookRepository.Update (r : InMemoryBookRepository) (h : Heap) (book : Addr) :
    Outcome :=
  match r.books.get (h.read book).ID with
  | none => { err := some ErrBookNotFound, r := r, heap := h }
  | some existing =>
    if (h.read existing).ISBN ≠ (h.read book).ISBN then
      if (r.isbn.get (h.read book).ISBN).isSome then
        { err := some ErrBookAlreadyExists, r := r, heap := h }
      else
        let isbn := (r.isbn.delete (h.read existing).ISBN).set (h.read book).ISBN (h.read book).ID
        let (p, h1) := h.alloc (h.read book)
        { err := none, r := { books := r.books.set (h.read book).ID p, isbn := isbn }, heap := h1 }
    else
      let (p, h1) := h.alloc (h.read book)
      { err := none, r := { books := r.books.set (h.read book).ID p, isbn := r.isbn }, heap := h1 }

/-- The method `Delete`. -/
def InMemoryBookRepository.Delete (r : InMemoryBookRepository) (h : Heap) (id : GoString) :
    Outcome :=
  match r.books.get id with
  | none => { err := some ErrBookNotFound, r := r, heap := h }
  | some book =>
    { err := none,
      r := { books := r.books.delete id, isbn := r.isbn.delete (h.read book).ISBN },
      heap := h }

/-! ## Consistency of the two indexes -/

/-- Every entry `isbn[k] = id` has a record `books[id]` with ISBN `k` and ID `id`. -/
def IsbnEntriesBacked (r : InMemoryBookRepository) (h : Heap) : Prop :=
  ∀ k id, r.isbn.get k = some id →
    ∃ p, r.books.get id = some p ∧ (h.read p).ISBN = k ∧ (h.read p).ID = id

/-- Every record `b = books[id]` has `b.ID = id` and `isbn[b.ISBN] = id`. -/
def BooksIndexed (r : InMemoryBookRepository) (h : Heap) : Prop :=
  ∀ id p, r.books.get id = some p →
    (h.read p).ID = id ∧ r.isbn.get (h.read p).ISBN = some id

/-- Dual-index consistency. -/
def Consistent (r : InMemoryBookRepository) (h : Heap) : Prop :=
  IsbnEntriesBacked r h ∧ BooksIndexed r h

/-- Every pointer held by the primary index refers to a live record. -/
def StoredValid (r : InMemoryBookRepository) (h : Heap) : Prop :=
  ∀ id p, r.books.get id = some p → h.valid p

/-- What every reachable state satisfies: the two indexes are consistent, the stored
pointers are live, and neither map holds a key twice. -/
def StoreInv (r : InMemoryBookRepository) (h : Heap) : Prop :=
  Consistent r h ∧ StoredValid r h ∧ r.books.keys.Nodup ∧ r.isbn.keys.Nodup

/-- The states reached from `NewInMemoryBookRepository()` by calls of `Create`, `Update`
and `Delete`. Between calls the caller may make new records and change records it owns,
that is records the store holds no pointer to; `Create` receives a valid pointer and a
generated identifier that is not yet a key of `books`. -/
inductive Reachable : InMemoryBookRepository → Heap → Prop
  | new (h : Heap) : Reachable NewInMemoryBookRepository h
  | callerNew {r : InMemoryBookRepository} {h : Heap} (b : Book) :
      Reachable r h → Reachable r (h.alloc b).2
  | callerSet {r : InMemoryBookRepository} {h : Heap} (a : Addr) (b : Book) :
      Reachable r h → (∀ id, r.books.get id ≠ some a) → Reachable r (h.write a b)
  | create {r : InMemoryBookRepository} {h : Heap} (book : Addr) (u : UUID) :
      Reachable r h → h.valid book → r.books.get u.String = none →
      Reachable (r.Create h book u).r (r.Create h book u).heap
  | update {r : InMemoryBookRepository} {h : Heap} (book : Addr) :
      Reachable r h → h.valid book →
      Reachable (r.Update h book).r (r.Update h book).heap
  | delete {r : InMemoryBookRepository} {h : Heap} (id : GoString) :
      Reachable r h → Reachable (r.Delete h id).r (r.Delete h id).heap

/-! ## Iteration over a map and `FindAll` -/

/-- The list `l` with `a` put in at position `n` (at the end when `l` is shorter). -/
def insertAt {α : Type} (a : α) : Nat → List α → List α
  | 0, l => a :: l
  | _ + 1, [] => [a]
  | n + 1, x :: l => x :: insertAt a n l

/-- An arrangement of `l` selected by `seed`, read in the factorial number system: every
arrangement of `l` is selected by some `seed`. -/
def arrange {α : Type} : List α → Nat → List α
  | [], _ => []
  | x :: l, seed => insertAt x (seed % (l.length + 1)) (arrange l (seed / (l.length + 1)))

/-- The entries in the order in which one `for ... range m` loop visits them. Go leaves
this order unspecified and varies it from one loop to the next; `seed` stands for the choice
made by the runtime for this loop. -/
def GoMap.range {V : Type} (m : GoMap V) (seed : Nat) : List (GoString × V) :=
  arrange m.entries seed

/-- The method `FindAll`: the stored pointers, appended in the order of the loop over
`r.books`; the error is always `nil`. -/
def InMemoryBookRepository.FindAll (r : InMemoryBookRepository) (seed : Nat) :
    List Addr × Option DomainError :=
  ((r.books.range seed).map Prod.snd, none)

/-- The states reached from `NewInMemoryBookRepository()` in which exactly `n` calls of
`Create` were made and all of them returned no error. The caller's own steps are those of
`Reachable`. -/
inductive CreatedN : Nat → InMemoryBookRepository → Heap → Prop
  | new (h : Heap) : CreatedN 0 NewInMemoryBookRepository h
  | callerNew {n : Nat} {r : InMemoryBookRepository} {h : Heap} (b : Book) :
      CreatedN n r h → CreatedN n r (h.alloc b).2
  | callerSet {n : Nat} {r : InMemoryBookRepository} {h : Heap} (a : Addr) (b : Book) :
      CreatedN n r h → (∀ id, r.books.get id ≠ some a) → CreatedN n r (h.write a b)
  | create {n : Nat} {r : InMemoryBookRepository} {h : Heap} (book : Addr) (u : UUID) :
      CreatedN n r h → h.valid book → r.books.get u.String = none →
      (r.Create h book u).err = none →
      CreatedN (n + 1) (r.Create h book u).r (r.Create h book u).heap

/-! ## Package `service` -/

/-- The method `BookService.CreateBook` over an `InMemoryBookRepository`: the returned
pointer (`none` is `nil`) and what the call leaves behind. `now` is the reading of
`time.Now()` in `NewBook` and `u` the value of `uuid.New()` in `Create`. -/
def BookService.CreateBook (r : InMemoryBookRepository) (h : Heap) (now : Time) (u : UUID)
    (title author isbn : GoString) : Option Addr × Outcome :=
  match NewBook now title author isbn with
  | .error err => (none, { err := some err, r := r, heap := h })
  | .ok b =>
    let (book, h1) := h.alloc b
    let o := r.Create h1 book u
    match o.err with
    | some _ => (none, o)
    | none => (some book, o)

/-- The method `BookService.GetBook`. -/
def BookService.GetBook (r : InMemoryBookRepository) (id : GoString) :
    Option Addr × Option DomainError :=
  r.FindByID id

/-- The method `BookService.ListBooks`. -/
def BookService.ListBooks (r : InMemoryBookRepository) (seed : Nat) :
    List Addr × Option DomainError :=
  r.FindAll seed

/-- The record `b` after the assignments `UpdateBook` makes through the pointer: each of
`Title`, `Author` and `ISBN` is replaced when its argument is not the empty string, and
`UpdatedAt` becomes `now`. -/
def BookService.assigned (b : Book) (now : Time) (title author isbn : GoString) : Book :=
  { b with
    Title := if title ≠ [] then title else b.Title
    Author := if author ≠ [] then author else b.Author
    ISBN := if isbn ≠ [] then isbn else b.ISBN
    UpdatedAt := now }

/-- The method `BookService.UpdateBook` over an `InMemoryBookRepository`; `now` is the
reading of `time.Now()`. The pointer `book` is the one `FindByID` returned, and the
assignments go through it. `FindByID` returns a `nil` pointer only together with an error,
so the last case of the first `match` does not occur. -/
def BookService.UpdateBook (r : InMemoryBookRepository) (h : Heap) (now : Time)
    (id title author isbn : GoString) : Option Addr × Outcome :=
  match r.FindByID id with
  | (_, some err) => (none, { err := some err, r := r, heap := h })
  | (some book, none) =>
    let h1 := if title ≠ [] then h.write book { h.read book with Title := title } else h
    let h2 := if author ≠ [] then h1.write book { h1.read book with Author := author } else h1
    let h3 := if isbn ≠ [] then h2.write book { h2.read book with ISBN := isbn } else h2
    let h4 := h3.write book { h3.read book with UpdatedAt := now }
    let o := r.Update h4 book
    match o.err with
    | some _ => (none, o)
    | none => (some book, o)
  | (none, none) => (none, { err := none, r := r, heap := h })

/-- The method `BookService.DeleteBook`. -/
def BookService.DeleteBook (r : InMemoryBookRepository) (h : Heap) (id : GoString) : Outcome :=
  r.Delete h id

/-! ## Sample data -/

def sampleUUID1 : UUID :=
  ⟨[0x6b, 0xa7, 0xb8, 0x10, 0x9d, 0xad, 0x11, 0xd1, 0x80, 0xb4, 0x00, 0xc0, 0x4f, 0xd4, 0x30,
    0xc8], rfl⟩

def sampleUUID2 : UUID :=
  ⟨[0x6b, 0xa7, 0xb8, 0x11, 0x9d, 0xad, 0x11, 0xd1, 0x80, 0xb4, 0x00, 0xc0, 0x4f, 0xd4, 0x30,
    0xc8], rfl⟩

def cleanCode : Book :=
  { ID := [], Title := "Clean Code".toList, Author := "Robert Martin".toList,
    ISBN := "0132350882".toList, CreatedAt := 1, UpdatedAt := 1 }

def cleanArchitecture : Book :=
  { ID := [], Title := "Clean Architecture".toList, Author := "Robert Martin".toList,
    ISBN := "9780134494166".toList, CreatedAt := 2, UpdatedAt := 2 }

/-- A record the caller fills in to move the second book onto the ISBN of the first. -/
def conflicting : Book :=
  { ID := "6ba7b811-9dad-11d1-80b4-00c04fd430c8".toList,
    Title := "Clean Architecture".toList, Author := "Robert Martin".toList,
    ISBN := "0132350882".toList, CreatedAt := 2, UpdatedAt := 3 }

/-- The caller's records, at addresses 0, 1 and 2. -/
def callerRecords : Heap := [cleanCode, cleanArchitecture, conflicting]

/-- A store holding `cleanCode`, created from the caller's record at address 0. -/
def oneBook : Outcome :=
  NewInMemoryBookRepository.Create callerRecords 0 sampleUUID1

/-- A store holding `cleanCode` and `cleanArchitecture`, the second created from the
caller's record at address 1. -/
def twoBooks : Outcome :=
  oneBook.r.Create oneBook.heap 1 sampleUUID2

/-- A record the caller fills in to move the second book onto an ISBN not yet in use. -/
def moved : Book :=
  { ID := "6ba7b811-9dad-11d1-80b4-00c04fd430c8".toList,
    Title := "Clean Architecture".toList, Author := "Robert Martin".toList,
    ISBN := "9780321125215".toList, CreatedAt := 2, UpdatedAt := 4 }

/-- The heap of `twoBooks` with the caller's new record `moved`, at address 5. -/
def twoBooksAndMoved : Heap := (twoBooks.heap.alloc moved).2

/-- A record the caller fills in for the second book, with another creation time. -/
def redated : Book :=
  { ID := "6ba7b811-9dad-11d1-80b4-00c04fd430c8".toList,
    Title := "Clean Architecture".toList, Author := "Robert Martin".toList,
    ISBN := "9780134494166".toList, CreatedAt := 7, UpdatedAt := 7 }

/-- The heap of `twoBooks` with the caller's new record `redated`, at address 5. -/
def twoBooksAndRedated : Heap := (twoBooks.heap.alloc redated).2

/-- A store made by the service alone: one `CreateBook` on a new repository. -/
def served : Option Addr × Outcome :=
  BookService.CreateBook NewInMemoryBookRepository [] 5 sampleUUID1
    "Domain-Driven Design".toList "Eric Evans".toList "978-0-321-12521-5".toList

/-- The store `served` after `UpdateBook` gives its book another valid ISBN. -/
def servedMoved : Option Addr × Outcome :=
  BookService.UpdateBook served.2.r served.2.heap 9 sampleUUID1.String [] []
    "9780134494166".toList

/-- The store `servedMoved` after `DeleteBook` of its book. -/
def servedDeleted : Outcome :=
  BookService.DeleteBook servedMoved.2.r servedMoved.2.heap sampleUUID1.String

/-- A second `CreateBook` on `served` for which `uuid.New()` returns the identifier it
returned for the first. -/
def servedAgain : Option Addr × Outcome :=
  BookService.CreateBook served.2.r served.2.heap 6 sampleUUID1
    "Clean Code".toList "Robert Martin".toList "0132350882".toList

/-- The heap of `oneBook` after the caller, holding the pointer 3 that `FindByID` returned,
assigns another ISBN through it. -/
def oneBookRetyped : Heap :=
  oneBook.heap.write 3 { oneBook.heap.read 3 with ISBN := "9780134494166".toList }

/-- The store `oneBook` after the caller passes that same pointer to `Create`. -/
def createdTwice : Outcome :=
  oneBook.r.Create oneBookRetyped 3 sampleUUID2

/-! ## Lemmas on strings and the pattern -/

theorem utf8Size_of_le (c : Char) (h : c.toNat ≤ 0x7F) : c.utf8Size = 1 := by
  have h' : c.val ≤ 0x7F := by
    rw [UInt32.le_def]
    exact h
  simp [Char.utf8Size, h']

theorem len_eq_length_of_ascii (s : GoString) (h : ∀ c ∈ s, c.toNat ≤ 0x7F) :
    len s = s.length := by
  induction s with
  | nil => rfl
  | cons c cs ih =>
    have hc := utf8Size_of_le c (h c (List.mem_cons_self _ _))
    have := ih (fun d hd => h d (List.mem_cons_of_mem _ hd))
    simp only [len, List.map_cons, List.sum_cons, List.length_cons] at *
    omega

theorem stringsReplaceAll_nil_eq_filter (s : GoString) (old : Char) :
    stringsReplaceAll s old [] = s.filter (fun c => decide (c ≠ old)) := by
  induction s with
  | nil => rfl
  | cons c cs ih =>
    by_cases h : c = old <;> simp [stringsReplaceAll, h, ih]

theorem stringsTrimSpace_eq_self (s : GoString) (h : ∀ c ∈ s, unicodeIsSpace c = false) :
    stringsTrimSpace s = s := by
  unfold stringsTrimSpace
  have h1 : s.dropWhile unicodeIsSpace = s := by
    cases s with
    | nil => rfl
    | cons c cs => simp [List.dropWhile, h c (List.mem_cons_self _ _)]
  rw [h1, List.rdropWhile_eq_self_iff]
  intro hl
  simp [h _ (List.getLast_mem hl)]

theorem perlDigit_bounds (c : Char) (h : perlDigit c = true) : 0x30 ≤ c.toNat ∧ c.toNat ≤ 0x39 := by
  simpa [perlDigit] using h

theorem perlDigitOrHyphen_ascii (c : Char) (h : perlDigitOrHyphen c = true) : c.toNat ≤ 0x7F := by
  simp only [perlDigitOrHyphen, Bool.or_eq_true, beq_iff_eq] at h
  rcases h with h | h
  · have := perlDigit_bounds c h; omega
  · subst h; decide

theorem perlDigitOrHyphen_not_space (c : Char) (h : perlDigitOrHyphen c = true) :
    unicodeIsSpace c = false := by
  simp only [perlDigitOrHyphen, Bool.or_eq_true, beq_iff_eq] at h
  rcases h with h | h
  · have := perlDigit_bounds c h
    simp only [unicodeIsSpace]
    rw [if_pos (by omega)]
    simp
    omega
  · subst h; decide

theorem isbnRegex_MatchString_iff (t : GoString) :
    isbnRegex.MatchString t = true ↔
      ((t.length = 10 ∧ ∀ c ∈ t, perlDigit c = true)
        ∨ (t.length = 13 ∧ ∀ c ∈ t, perlDigit c = true)
        ∨ (13 ≤ t.length ∧ t.length ≤ 17 ∧ ∀ c ∈ t, perlDigit c = true ∨ c = '-')) := by
  simp only [Regexp.MatchString, isbnRegex, ClassRepeat.MatchString, List.any_cons,
    List.any_nil, Bool.or_false, Bool.or_eq_true, Bool.and_eq_true, decide_eq_true_eq,
    List.all_eq_true, perlDigitOrHyphen, beq_iff_eq]
  constructor
  · rintro (⟨⟨h1, h2⟩, h3⟩ | ⟨⟨h1, h2⟩, h3⟩ | ⟨⟨h1, h2⟩, h3⟩)
    · exact Or.inl ⟨by omega, h3⟩
    · exact Or.inr (Or.inl ⟨by omega, h3⟩)
    · exact Or.inr (Or.inr ⟨h1, h2, h3⟩)
  · rintro (⟨h1, h3⟩ | ⟨h1, h3⟩ | ⟨h1, h2, h3⟩)
    · exact Or.inl ⟨⟨by omega, by omega⟩, h3⟩
    · exact Or.inr (Or.inl ⟨⟨by omega, by omega⟩, h3⟩)
    · exact Or.inr (Or.inr ⟨⟨h1, h2⟩, h3⟩)

theorem isbnRegex_match_class (t : GoString) (h : isbnRegex.MatchString t = true) :
    ∀ c ∈ t, perlDigitOrHyphen c = true := by
  intro c hc
  simp only [perlDigitOrHyphen, Bool.or_eq_true, beq_iff_eq]
  rcases (isbnRegex_MatchString_iff t).1 h with ⟨_, h3⟩ | ⟨_, h3⟩ | ⟨_, _, h3⟩
  · exact Or.inl (h3 c hc)
  · exact Or.inl (h3 c hc)
  · exact h3 c hc

/-- On a text of digits and hyphens, normalisation is the removal of the hyphens and
the byte length of the result is its number of characters. -/
theorem normalizeISBN_of_class (t : GoString) (h : ∀ c ∈ t, perlDigitOrHyphen c = true) :
    normalizeISBN t = t.filter (fun c => decide (c ≠ '-'))
      ∧ len (normalizeISBN t) = (t.filter (fun c => decide (c ≠ '-'))).length := by
  have h1 : normalizeISBN t = t.filter (fun c => decide (c ≠ '-')) := by
    unfold normalizeISBN
    rw [stringsTrimSpace_eq_self t (fun c hc => perlDigitOrHyphen_not_space c (h c hc)),
      stringsReplaceAll_nil_eq_filter]
  refine ⟨h1, ?_⟩
  rw [h1]
  apply len_eq_length_of_ascii
  intro c hc
  exact perlDigitOrHyphen_ascii c (h c (List.mem_of_mem_filter hc))

theorem validateISBN_eq_none_iff (s : GoString) :
    validateISBN s = none ↔
      (stringsTrimSpace s ≠ [] ∧ isbnRegex.MatchString (stringsTrimSpace s) = true
        ∧ (len (normalizeISBN (stringsTrimSpace s)) = 10
            ∨ len (normalizeISBN (stringsTrimSpace s)) = 13)) := by
  unfold validateISBN
  simp only []
  split_ifs with h1 h2 h3
  · simp [h1]
  · simp at h2; simp [h2]
  · simp at h2; simp [h1, h2]; omega
  · simp at h2; simp [h1, h2]; omega

/-- C1: for every string `s`, `validateISBN s` succeeds exactly when the trimmed string
`t` is non-empty, `t` has the shape of the pattern (exactly 10 digits, or exactly 13 digits,
or 13 to 17 characters each an ASCII digit or a hyphen), and `t` without its hyphens has
length exactly 10 or exactly 13. The strings `0132350882`, `9780134494166` and
`978-0-13-449416-6` are accepted; the empty string, `123`, `012A350882` and `01323508821`
are rejected. -/
theorem validateISBN_accepts_iff :
    (∀ s : GoString, validateISBN s = none ↔
      (stringsTrimSpace s ≠ []
        ∧ (((stringsTrimSpace s).length = 10 ∧ ∀ c ∈ stringsTrimSpace s, perlDigit c = true)
          ∨ ((stringsTrimSpace s).length = 13 ∧ ∀ c ∈ stringsTrimSpace s, perlDigit c = true)
          ∨ (13 ≤ (stringsTrimSpace s).length ∧ (stringsTrimSpace s).length ≤ 17
              ∧ ∀ c ∈ stringsTrimSpace s, perlDigit c = true ∨ c = '-'))
        ∧ (((stringsTrimSpace s).filter (fun c => decide (c ≠ '-'))).length = 10
          ∨ ((stringsTrimSpace s).filter (fun c => decide (c ≠ '-'))).length = 13)))
    ∧ validateISBN "0132350882".toList = none
    ∧ validateISBN "9780134494166".toList = none
    ∧ validateISBN "978-0-13-449416-6".toList = none
    ∧ validateISBN "".toList ≠ none
    ∧ validateISBN "123".toList ≠ none
    ∧ validateISBN "012A350882".toList ≠ none
    ∧ validateISBN "01323508821".toList ≠ none := by
  refine ⟨?_, by decide, by decide, by decide, by decide, by decide, by decide, by decide⟩
  intro s
  rw [validateISBN_eq_none_iff, ← isbnRegex_MatchString_iff]
  constructor
  · rintro ⟨h1, h2, h3⟩
    rw [(normalizeISBN_of_class _ (isbnRegex_match_class _ h2)).2] at h3
    exact ⟨h1, h2, h3⟩
  · rintro ⟨h1, h2, h3⟩
    rw [← (normalizeISBN_of_class _ (isbnRegex_match_class _ h2)).2] at h3
    exact ⟨h1, h2, h3⟩

theorem NewBook_eq_ok_iff (now : Time) (title author isbn : GoString) (b : Book) :
    NewBook now title author isbn = .ok b ↔
      (validateTitle title = none ∧ validateAuthor author = none ∧ validateISBN isbn = none
        ∧ b = { ID := [], Title := stringsTrimSpace title, Author := stringsTrimSpace author,
                ISBN := normalizeISBN isbn, CreatedAt := now, UpdatedAt := now }) := by
  unfold NewBook validateBook
  cases h1 : validateTitle title <;> cases h2 : validateAuthor author <;>
    cases h3 : validateISBN isbn <;> simp [eq_comm]

theorem NewBook_eq_error_iff (now : Time) (title author isbn : GoString) (e : DomainError) :
    NewBook now title author isbn = .error e ↔
      (validateTitle title = some e
        ∨ (validateTitle title = none ∧ validateAuthor author = some e)
        ∨ (validateTitle title = none ∧ validateAuthor author = none
            ∧ validateISBN isbn = some e)) := by
  unfold NewBook validateBook
  cases h1 : validateTitle title <;> cases h2 : validateAuthor author <;>
    cases h3 : validateISBN isbn <;> simp

theorem one_le_utf8Size (c : Char) : 1 ≤ c.utf8Size := by
  simp only [Char.utf8Size]
  split_ifs <;> omega

theorem length_le_len (s : GoString) : s.length ≤ len s := by
  induction s with
  | nil => simp [len]
  | cons c cs ih =>
    have := one_le_utf8Size c
    simp only [len, List.map_cons, List.sum_cons, List.length_cons] at *
    omega

/-- C2: when `NewBook` succeeds, the `ISBN` of the returned book consists only of ASCII
digits (no hyphen, no white space) and its length, in characters and in bytes, is exactly
10 or exactly 13; with the same title and author, the ISBN `978-0-321-12521-5` yields
`9780321125215`. -/
theorem NewBook_ISBN_canonical (now : Time) (title author isbn : GoString) (b : Book)
    (h : NewBook now title author isbn = .ok b) :
    (∀ c ∈ b.ISBN, perlDigit c = true ∧ c ≠ '-' ∧ unicodeIsSpace c = false)
      ∧ (b.ISBN.length = 10 ∨ b.ISBN.length = 13)
      ∧ (len b.ISBN = 10 ∨ len b.ISBN = 13)
      ∧ NewBook now title author "978-0-321-12521-5".toList
          = .ok { b with ISBN := "9780321125215".toList } := by
  obtain ⟨ht, ha, hi, hb⟩ := (NewBook_eq_ok_iff now title author isbn b).1 h
  obtain ⟨_, hm, hl⟩ := (validateISBN_eq_none_iff isbn).1 hi
  have hcls := isbnRegex_match_class _ hm
  have hn := normalizeISBN_of_class _ hcls
  have hISBN : b.ISBN = (stringsTrimSpace isbn).filter (fun c => decide (c ≠ '-')) := by
    rw [hb]
    show normalizeISBN isbn = _
    unfold normalizeISBN
    rw [stringsReplaceAll_nil_eq_filter]
  have hdig : ∀ c ∈ b.ISBN, perlDigit c = true ∧ c ≠ '-' ∧ unicodeIsSpace c = false := by
    intro c hc
    rw [hISBN, List.mem_filter] at hc
    have h1 := hcls c hc.1
    have h2 : c ≠ '-' := by simpa using hc.2
    refine ⟨?_, h2, perlDigitOrHyphen_not_space c h1⟩
    simp only [perlDigitOrHyphen, Bool.or_eq_true, beq_iff_eq] at h1
    exact h1.resolve_right h2
  have hlen : len b.ISBN = b.ISBN.length :=
    len_eq_length_of_ascii _ (fun c hc => by
      have := perlDigit_bounds c (hdig c hc).1
      omega)
  have hl2 : len b.ISBN = 10 ∨ len b.ISBN = 13 := by
    rw [hISBN, ← hn.1]; exact hl
  refine ⟨hdig, by omega, hl2, ?_⟩
  rw [NewBook_eq_ok_iff]
  refine ⟨ht, ha, by decide, ?_⟩
  rw [hb]
  have : normalizeISBN "978-0-321-12521-5".toList = "9780321125215".toList := by decide
  rw [this]

/-- C2 at a concrete input: the book made from `978-0-321-12521-5`. -/
theorem NewBook_ISBN_canonical_witness :
    NewBook 1700000000 "DDD".toList "Eric Evans".toList "978-0-321-12521-5".toList
        = .ok { ID := [], Title := "DDD".toList, Author := "Eric Evans".toList,
                ISBN := "9780321125215".toList, CreatedAt := 1700000000,
                UpdatedAt := 1700000000 }
      ∧ (∀ c ∈ "9780321125215".toList, perlDigit c = true ∧ c ≠ '-' ∧ unicodeIsSpace c = false)
      ∧ ("9780321125215".toList.length = 10 ∨ "9780321125215".toList.length = 13) :=
  have h := NewBook_ISBN_canonical 1700000000 "DDD".toList "Eric Evans".toList
    "978-0-321-12521-5".toList
    { ID := [], Title := "DDD".toList, Author := "Eric Evans".toList,
      ISBN := "9780321125215".toList, CreatedAt := 1700000000, UpdatedAt := 1700000000 }
    rfl
  ⟨rfl, h.1, h.2.1⟩

/-- C3: when `NewBook` succeeds, the returned book has `Title` and `Author` equal to
the trimmed arguments, `ISBN` equal to the trimmed `isbn` with every hyphen removed, `ID`
equal to the empty string, and `CreatedAt` and `UpdatedAt` both equal to the one clock
reading `now`. -/
theorem NewBook_fields (now : Time) (title author isbn : GoString) (b : Book)
    (h : NewBook now title author isbn = .ok b) :
    b.Title = stringsTrimSpace title
      ∧ b.Author = stringsTrimSpace author
      ∧ b.ISBN = (stringsTrimSpace isbn).filter (fun c => decide (c ≠ '-'))
      ∧ b.ID = []
      ∧ b.CreatedAt = now ∧ b.UpdatedAt = now ∧ b.CreatedAt = b.UpdatedAt := by
  obtain ⟨_, _, _, hb⟩ := (NewBook_eq_ok_iff now title author isbn b).1 h
  subst hb
  refine ⟨rfl, rfl, ?_, rfl, rfl, rfl, rfl⟩
  show normalizeISBN isbn = _
  unfold normalizeISBN
  rw [stringsReplaceAll_nil_eq_filter]

/-- C3 at a concrete input with surrounding white space and hyphens. -/
theorem NewBook_fields_witness :
    (⟨[], "Clean Code".toList, "Robert Martin".toList, "9780134494166".toList, 42, 42⟩ : Book).Title
        = stringsTrimSpace "  Clean Code ".toList
      ∧ (⟨[], "Clean Code".toList, "Robert Martin".toList, "9780134494166".toList, 42, 42⟩ : Book).ISBN
        = (stringsTrimSpace " 978-0-13-449416-6".toList).filter (fun c => decide (c ≠ '-')) :=
  have h := NewBook_fields 42 "  Clean Code ".toList "Robert Martin\t".toList
    " 978-0-13-449416-6".toList
    ⟨[], "Clean Code".toList, "Robert Martin".toList, "9780134494166".toList, 42, 42⟩
    rfl
  ⟨h.1, h.2.2.1⟩

/-! ## Field validation: titles, authors and the constructor's failures -/

theorem validateTitle_ne_none_iff (title : GoString) :
    validateTitle title ≠ none ↔
      (stringsTrimSpace title = [] ∨ len (stringsTrimSpace title) > 200) := by
  unfold validateTitle MaxTitleLength
  simp only []
  split_ifs with h1 h2
  · simp [h1]
  · simp [h1]; omega
  · simp [h1]; omega

theorem validateAuthor_ne_none_iff (author : GoString) :
    validateAuthor author ≠ none ↔
      (stringsTrimSpace author = [] ∨ len (stringsTrimSpace author) > 100) := by
  unfold validateAuthor MaxAuthorLength
  simp only []
  split_ifs with h1 h2
  · simp [h1]
  · simp [h1]; omega
  · simp [h1]; omega

/-- C4, as stated, fails: a title of 67 euro signs has 67 characters after trimming (it is
neither empty nor longer than 200 characters), yet `validateTitle` rejects it, because the
201 bytes of its encoding exceed `MaxTitleLength`. -/
theorem validateTitle_counts_bytes_counterexample :
    validateTitle (List.replicate 67 '€') ≠ none
      ∧ ¬ (stringsTrimSpace (List.replicate 67 '€') = []
            ∨ (stringsTrimSpace (List.replicate 67 '€')).length > 200) := by
  decide

/-- C4, amended: `validateTitle` fails exactly when the title is empty after trimming or
the trimmed title is longer than 200 bytes in UTF-8 (Go's `len`). Hence a trimmed title of
more than 200 characters always fails, and a non-empty trimmed title of at most 200
characters is accepted whenever all its characters are ASCII. -/
theorem validateTitle_fails_iff (title : GoString) :
    (validateTitle title ≠ none ↔
      (stringsTrimSpace title = [] ∨ len (stringsTrimSpace title) > 200))
    ∧ ((stringsTrimSpace title).length > 200 → validateTitle title ≠ none)
    ∧ (stringsTrimSpace title ≠ [] → (stringsTrimSpace title).length ≤ 200 →
        (∀ c ∈ stringsTrimSpace title, c.toNat ≤ 0x7F) → validateTitle title = none) := by
  refine ⟨validateTitle_ne_none_iff title, ?_, ?_⟩
  · intro h
    rw [validateTitle_ne_none_iff]
    have := length_le_len (stringsTrimSpace title)
    exact Or.inr (by omega)
  · intro h1 h2 h3
    by_contra hc
    rw [← ne_eq, validateTitle_ne_none_iff, len_eq_length_of_ascii _ h3] at hc
    rcases hc with hc | hc
    · exact h1 hc
    · omega

/-- C5, as stated, fails: an author of 34 euro signs has 34 characters after trimming (it
is neither empty nor longer than 100 characters), yet `validateAuthor` rejects it, because
the 102 bytes of its encoding exceed `MaxAuthorLength`. -/
theorem validateAuthor_counts_bytes_counterexample :
    validateAuthor (List.replicate 34 '€') ≠ none
      ∧ ¬ (stringsTrimSpace (List.replicate 34 '€') = []
            ∨ (stringsTrimSpace (List.replicate 34 '€')).length > 100) := by
  decide

/-- C5, amended: `validateAuthor` fails exactly when the author is empty after trimming or
the trimmed author is longer than 100 bytes in UTF-8 (Go's `len`). Hence a trimmed author
of more than 100 characters always fails, and a non-empty trimmed author of at most 100
characters is accepted whenever all its characters are ASCII. -/
theorem validateAuthor_fails_iff (author : GoString) :
    (validateAuthor author ≠ none ↔
      (stringsTrimSpace author = [] ∨ len (stringsTrimSpace author) > 100))
    ∧ ((stringsTrimSpace author).length > 100 → validateAuthor author ≠ none)
    ∧ (stringsTrimSpace author ≠ [] → (stringsTrimSpace author).length ≤ 100 →
        (∀ c ∈ stringsTrimSpace author, c.toNat ≤ 0x7F) → validateAuthor author = none) := by
  refine ⟨validateAuthor_ne_none_iff author, ?_, ?_⟩
  · intro h
    rw [validateAuthor_ne_none_iff]
    have := length_le_len (stringsTrimSpace author)
    exact Or.inr (by omega)
  · intro h1 h2 h3
    by_contra hc
    rw [← ne_eq, validateAuthor_ne_none_iff, len_eq_length_of_ascii _ h3] at hc
    rcases hc with hc | hc
    · exact h1 hc
    · omega

theorem validateTitle_error (title : GoString) (e : DomainError)
    (h : validateTitle title = some e) :
    e.Code = "INVALID_INPUT".toList ∧ e.StatusCode = 400 ∧ e.Err = none
      ∧ "title".toList <+: e.Message := by
  unfold validateTitle at h
  simp only [] at h
  split_ifs at h <;> (cases h; decide)

theorem validateAuthor_error (author : GoString) (e : DomainError)
    (h : validateAuthor author = some e) :
    e.Code = "INVALID_INPUT".toList ∧ e.StatusCode = 400 ∧ e.Err = none
      ∧ "author".toList <+: e.Message := by
  unfold validateAuthor at h
  simp only [] at h
  split_ifs at h <;> (cases h; decide)

theorem validateISBN_error (isbn : GoString) (e : DomainError)
    (h : validateISBN isbn = some e) :
    e.Code = "INVALID_INPUT".toList ∧ e.StatusCode = 400 ∧ e.Err = none
      ∧ "isbn".toList <+: e.Message := by
  unfold validateISBN at h
  simp only [] at h
  split_ifs at h <;> (cases h; decide)

/-- C6: `NewBook` fails exactly when one of `validateTitle`, `validateAuthor`,
`validateISBN` fails. A failure carries no book (the result is an `Except.error`); its error
has the code and status of `ErrInvalidInput` (`INVALID_INPUT`, 400), and it is the error of
the first failing validator in the order title, author, isbn, whose message begins with the
name of that field. -/
theorem NewBook_fails_iff (now : Time) (title author isbn : GoString) :
    ((∃ e, NewBook now title author isbn = .error e) ↔
      (validateTitle title ≠ none ∨ validateAuthor author ≠ none ∨ validateISBN isbn ≠ none))
    ∧ ((∃ b, NewBook now title author isbn = .ok b) ↔
      (validateTitle title = none ∧ validateAuthor author = none ∧ validateISBN isbn = none))
    ∧ (∀ e, NewBook now title author isbn = .error e →
        e.Code = "INVALID_INPUT".toList ∧ e.StatusCode = 400
        ∧ e.Code = ErrInvalidInput.Code ∧ e.StatusCode = ErrInvalidInput.StatusCode
        ∧ ((validateTitle title = some e ∧ "title".toList <+: e.Message)
          ∨ (validateTitle title = none ∧ validateAuthor author = some e
              ∧ "author".toList <+: e.Message)
          ∨ (validateTitle title = none ∧ validateAuthor author = none
              ∧ validateISBN isbn = some e ∧ "isbn".toList <+: e.Message))) := by
  refine ⟨?_, ?_, ?_⟩
  · simp only [NewBook_eq_error_iff]
    cases h1 : validateTitle title <;> cases h2 : validateAuthor author <;>
      cases h3 : validateISBN isbn <;> simp
  · simp only [NewBook_eq_ok_iff]
    constructor
    · rintro ⟨b, h1, h2, h3, _⟩
      exact ⟨h1, h2, h3⟩
    · rintro ⟨h1, h2, h3⟩
      exact ⟨_, h1, h2, h3, rfl⟩
  · intro e he
    rw [NewBook_eq_error_iff] at he
    rcases he with h | ⟨h0, h⟩ | ⟨h0, h1, h⟩
    · obtain ⟨a, b, _, d⟩ := validateTitle_error title e h
      exact ⟨a, b, a, b, Or.inl ⟨h, d⟩⟩
    · obtain ⟨a, b, _, d⟩ := validateAuthor_error author e h
      exact ⟨a, b, a, b, Or.inr (Or.inl ⟨h0, h, d⟩)⟩
    · obtain ⟨a, b, _, d⟩ := validateISBN_error isbn e h
      exact ⟨a, b, a, b, Or.inr (Or.inr ⟨h0, h1, h, d⟩)⟩

/-- C6 at concrete inputs: an empty author with a valid title and a malformed ISBN fails
with the author's reason, not the ISBN's. -/
theorem NewBook_fails_iff_witness :
    NewBook 7 "Clean Code".toList "  ".toList "123".toList
        = .error (ErrInvalidInput.WithMessage "author cannot be empty".toList)
      ∧ (ErrInvalidInput.WithMessage "author cannot be empty".toList).Code
          = "INVALID_INPUT".toList
      ∧ (ErrInvalidInput.WithMessage "author cannot be empty".toList).StatusCode = 400 :=
  have h := (NewBook_fails_iff 7 "Clean Code".toList "  ".toList "123".toList).2.2
    (ErrInvalidInput.WithMessage "author cannot be empty".toList) rfl
  ⟨rfl, h.1, h.2.1⟩

/-! ## Lemmas on maps and the heap -/

theorem GoMap.get_delete_self {V : Type} (m : GoMap V) (k : GoString) :
    (m.delete k).get k = none := by
  obtain ⟨l⟩ := m
  simp only [GoMap.get, GoMap.delete, Option.map_eq_none']
  induction l with
  | nil => rfl
  | cons e l ih =>
    by_cases h : e.1 = k
    · rw [List.filter_cons_of_neg (by simp [h])]
      exact ih
    · rw [List.filter_cons_of_pos (by simp [h]), List.find?_cons_of_neg _ (by simp [h])]
      exact ih

theorem GoMap.get_delete_ne {V : Type} (m : GoMap V) (k k' : GoString) (hk : k' ≠ k) :
    (m.delete k).get k' = m.get k' := by
  obtain ⟨l⟩ := m
  simp only [GoMap.get, GoMap.delete]
  congr 1
  induction l with
  | nil => rfl
  | cons e l ih =>
    by_cases h : e.1 = k
    · have h' : ¬ e.1 = k' := fun h2 => hk (h2.symm.trans h)
      rw [List.filter_cons_of_neg (by simp [h]), List.find?_cons_of_neg _ (by simp [h'])]
      exact ih
    · rw [List.filter_cons_of_pos (by simp [h])]
      by_cases h2 : e.1 = k'
      · rw [List.find?_cons_of_pos _ (by simp [h2]), List.find?_cons_of_pos _ (by simp [h2])]
      · rw [List.find?_cons_of_neg _ (by simp [h2]), List.find?_cons_of_neg _ (by simp [h2])]
        exact ih

theorem GoMap.get_set_self {V : Type} (m : GoMap V) (k : GoString) (v : V) :
    (m.set k v).get k = some v := by
  simp [GoMap.get, GoMap.set]

theorem GoMap.get_set_ne {V : Type} (m : GoMap V) (k k' : GoString) (v : V) (hk : k' ≠ k) :
    (m.set k v).get k' = m.get k' := by
  have h := GoMap.get_delete_ne m k k' hk
  simp only [GoMap.get, GoMap.set] at h ⊢
  rw [List.find?_cons]
  simp [Ne.symm hk, h]

theorem GoMap.get_make {V : Type} (k : GoString) : (GoMap.make : GoMap V).get k = none := rfl

theorem GoMap.keys_delete_nodup {V : Type} (m : GoMap V) (k : GoString)
    (h : m.keys.Nodup) : (m.delete k).keys.Nodup := by
  obtain ⟨l⟩ := m
  simp only [GoMap.keys, GoMap.delete] at h ⊢
  exact List.Nodup.sublist (List.Sublist.map Prod.fst (List.filter_sublist l)) h

theorem GoMap.not_mem_keys_delete {V : Type} (m : GoMap V) (k : GoString) :
    k ∉ (m.delete k).keys := by
  obtain ⟨l⟩ := m
  simp only [GoMap.keys, GoMap.delete, List.mem_map, List.mem_filter, not_exists, not_and]
  rintro ⟨k', v⟩ ⟨_, h2⟩ h3
  simp only at h3
  simp [h3] at h2

theorem GoMap.keys_set_nodup {V : Type} (m : GoMap V) (k : GoString) (v : V)
    (h : m.keys.Nodup) : (m.set k v).keys.Nodup := by
  have h1 := GoMap.keys_delete_nodup m k h
  have h2 := GoMap.not_mem_keys_delete m k
  simp only [GoMap.keys, GoMap.set, List.map_cons, List.nodup_cons] at h1 h2 ⊢
  exact ⟨h2, h1⟩

theorem GoMap.get_eq_some_of_mem {V : Type} (m : GoMap V) (k : GoString) (v : V)
    (hn : m.keys.Nodup) (h : (k, v) ∈ m.entries) : m.get k = some v := by
  obtain ⟨l⟩ := m
  simp only [GoMap.get, GoMap.keys] at hn h ⊢
  induction l with
  | nil => simp at h
  | cons e l ih =>
    simp only [List.map_cons, List.nodup_cons] at hn
    rcases List.mem_cons.1 h with h | h
    · subst h; simp
    · have hne : ¬ e.1 = k := by
        intro he
        apply hn.1
        rw [he]
        exact List.mem_map.2 ⟨(k, v), h, rfl⟩
      simp only [List.find?_cons, hne, decide_False]
      exact ih hn.2 h

theorem GoMap.mem_of_get_eq_some {V : Type} (m : GoMap V) (k : GoString) (v : V)
    (h : m.get k = some v) : (k, v) ∈ m.entries := by
  obtain ⟨l⟩ := m
  simp only [GoMap.get, Option.map_eq_some'] at h
  obtain ⟨e, he, hv⟩ := h
  have h1 := List.mem_of_find?_eq_some he
  have h2 := List.find?_some he
  simp only [decide_eq_true_eq] at h2
  have : e = (k, v) := by
    cases e; simp_all
  rw [← this]; exact h1

theorem Heap.read_alloc_old (h : Heap) (b : Book) (a : Addr) (ha : a < h.length) :
    (h.alloc b).2.read a = h.read a := by
  simp [Heap.read, Heap.alloc, List.getD_eq_getElem?_getD, List.getElem?_append_left ha]

theorem Heap.read_alloc_new (h : Heap) (b : Book) :
    (h.alloc b).2.read (h.alloc b).1 = b := by
  simp [Heap.read, Heap.alloc, List.getD_eq_getElem?_getD]

theorem Heap.read_write_self (h : Heap) (a : Addr) (b : Book) (ha : a < h.length) :
    (h.write a b).read a = b := by
  simp [Heap.read, Heap.write, List.getD_eq_getElem?_getD, ha]

theorem Heap.read_write_ne (h : Heap) (a a' : Addr) (b : Book) (hne : a' ≠ a) :
    (h.write a b).read a' = h.read a' := by
  simp [Heap.read, Heap.write, List.getD_eq_getElem?_getD, List.getElem?_set_ne (Ne.symm hne)]

theorem Heap.length_write (h : Heap) (a : Addr) (b : Book) :
    (h.write a b).length = h.length := by
  simp [Heap.write]

theorem Heap.length_alloc (h : Heap) (b : Book) :
    (h.alloc b).2.length = h.length + 1 := by
  simp [Heap.alloc]

theorem UUID.String_ne_nil (u : UUID) : u.String ≠ [] := by
  simp [UUID.String]

theorem hexEncode_length (src : List (Fin 256)) : (hexEncode src).length = 2 * src.length := by
  induction src with
  | nil => rfl
  | cons v src ih => simp [hexEncode, ih]; omega

theorem UUID.String_length (u : UUID) : u.String.length = 36 := by
  have := u.size
  simp only [UUID.String, List.length_append, List.length_cons, hexEncode_length,
    List.length_take, List.length_drop]
  omega

theorem GoMap.get_isSome_iff {V : Type} (m : GoMap V) (k : GoString) :
    (m.get k).isSome = true ↔ k ∈ m.keys := by
  obtain ⟨l⟩ := m
  simp only [GoMap.get, GoMap.keys, List.mem_map]
  cases hf : l.find? (fun e => decide (e.1 = k)) with
  | none =>
    simp only [Option.map_none', Option.isSome_none]
    constructor
    · intro hc; cases hc
    · rintro ⟨e, he, hk⟩
      have := List.find?_eq_none.1 hf e he
      simp [hk] at this
  | some e =>
    simp only [Option.map_some', Option.isSome_some, true_iff]
    have h2 := List.find?_some hf
    simp only [decide_eq_true_eq] at h2
    exact ⟨e, List.mem_of_find?_eq_some hf, h2⟩

theorem GoMap.get_eq_none_iff {V : Type} (m : GoMap V) (k : GoString) :
    m.get k = none ↔ k ∉ m.keys := by
  rw [← GoMap.get_isSome_iff]
  cases m.get k <;> simp

theorem ErrBookNotFound_ne_AlreadyExists : ErrBookNotFound ≠ ErrBookAlreadyExists := by decide

/-! ## The store: `Create`, `Update`, `Delete` -/

theorem Create_of_isbn_present (r : InMemoryBookRepository) (h : Heap) (book : Addr) (u : UUID)
    (hk : (r.isbn.get (h.read book).ISBN).isSome = true) :
    r.Create h book u = { err := some ErrBookAlreadyExists, r := r, heap := h } := by
  simp [InMemoryBookRepository.Create, hk]

theorem Create_of_isbn_absent (r : InMemoryBookRepository) (h : Heap) (book : Addr) (u : UUID)
    (hv : h.valid book) (hk : r.isbn.get (h.read book).ISBN = none) :
    r.Create h book u =
      { err := none,
        r := { books := r.books.set u.String h.length,
               isbn := r.isbn.set (h.read book).ISBN u.String },
        heap := h.write book { h.read book with ID := u.String }
                  ++ [{ h.read book with ID := u.String }] } := by
  have hw := Heap.read_write_self h book { h.read book with ID := u.String } hv
  simp only [InMemoryBookRepository.Create, hk, Option.isSome_none, Bool.false_eq_true,
    if_false, Heap.alloc, hw, Heap.length_write]

/-- C7: for every store state and every book (a valid pointer `book`), `Create` fails with
`ErrBookAlreadyExists` exactly when the book's ISBN is already a key of the `isbn` index.
Otherwise it returns no error, the argument's `ID` becomes the generated identifier
`u.String`, which is not empty, the argument is otherwise unchanged, and afterwards
`FindByID` of that ID and `FindByISBN` of the book's ISBN both return, without error, a
pointer to a record equal to the argument with the assigned ID. -/
theorem Create_spec (r : InMemoryBookRepository) (h : Heap) (book : Addr) (u : UUID)
    (hv : h.valid book) :
    ((r.Create h book u).err = some ErrBookAlreadyExists ↔ (h.read book).ISBN ∈ r.isbn.keys)
    ∧ ((h.read book).ISBN ∉ r.isbn.keys →
        (r.Create h book u).err = none
        ∧ (r.Create h book u).heap.read book = { h.read book with ID := u.String }
        ∧ ((r.Create h book u).heap.read book).ID ≠ []
        ∧ ∃ p q,
            (r.Create h book u).r.FindByID ((r.Create h book u).heap.read book).ID
                = (some p, none)
            ∧ (r.Create h book u).r.FindByISBN ((r.Create h book u).heap.read book).ISBN
                = (some q, none)
            ∧ (r.Create h book u).heap.read p = (r.Create h book u).heap.read book
            ∧ (r.Create h book u).heap.read q = (r.Create h book u).heap.read book) := by
  have hpost : (h.read book).ISBN ∉ r.isbn.keys →
      (r.Create h book u).err = none
      ∧ (r.Create h book u).heap.read book = { h.read book with ID := u.String }
      ∧ (r.Create h book u).r.FindByID u.String = (some h.length, none)
      ∧ (r.Create h book u).r.FindByISBN (h.read book).ISBN = (some h.length, none)
      ∧ (r.Create h book u).heap.read h.length = { h.read book with ID := u.String } := by
    intro hk
    rw [← GoMap.get_eq_none_iff] at hk
    rw [Create_of_isbn_absent r h book u hv hk]
    have hlen := Heap.length_write h book { h.read book with ID := u.String }
    have h1 := Heap.read_alloc_old (h.write book { h.read book with ID := u.String })
      { h.read book with ID := u.String } book (by rw [hlen]; exact hv)
    have h2 := Heap.read_alloc_new (h.write book { h.read book with ID := u.String })
      { h.read book with ID := u.String }
    simp only [Heap.alloc, hlen] at h1 h2
    refine ⟨rfl, ?_, ?_, ?_, h2⟩
    · rw [h1, Heap.read_write_self h book _ hv]
    · simp [InMemoryBookRepository.FindByID, GoMap.get_set_self]
    · simp [InMemoryBookRepository.FindByISBN, GoMap.get_set_self]
  refine ⟨?_, ?_⟩
  · by_cases hk : (h.read book).ISBN ∈ r.isbn.keys
    · rw [Create_of_isbn_present r h book u ((GoMap.get_isSome_iff _ _).2 hk)]
      simp [hk]
    · simp [(hpost hk).1, hk]
  · intro hk
    obtain ⟨h1, h2, h3, h4, h5⟩ := hpost hk
    refine ⟨h1, h2, ?_, h.length, h.length, ?_, ?_, ?_, ?_⟩
    · rw [h2]; exact u.String_ne_nil
    · rw [h2]; exact h3
    · rw [h2]; exact h4
    · rw [h5, h2]
    · rw [h5, h2]

/-- C7 at a concrete input: creating `cleanCode` in a new store succeeds and assigns the
generated identifier. -/
theorem Create_spec_witness :
    (NewInMemoryBookRepository.Create callerRecords 0 sampleUUID1).err = none
      ∧ (NewInMemoryBookRepository.Create callerRecords 0 sampleUUID1).heap.read 0
          = { cleanCode with ID := "6ba7b810-9dad-11d1-80b4-00c04fd430c8".toList } :=
  have h := (Create_spec NewInMemoryBookRepository callerRecords 0 sampleUUID1
    (by decide)).2 (by decide)
  ⟨h.1, h.2.1⟩

/-- C8: a call of `Create`, `Update` or `Delete` that returns an error returns
`ErrBookAlreadyExists` or `ErrBookNotFound` and leaves the repository and the heap exactly
as they were: both maps are unchanged (so are their keys, values and sizes), and after a
failed `Create` the argument's `ID` is what it was before the call. -/
theorem failed_call_changes_nothing (r : InMemoryBookRepository) (h : Heap) (book : Addr)
    (u : UUID) (id : GoString) :
    ((r.Create h book u).err ≠ none →
        (r.Create h book u).err = some ErrBookAlreadyExists
        ∧ (r.Create h book u).r = r ∧ (r.Create h book u).heap = h
        ∧ (r.Create h book u).r.books = r.books ∧ (r.Create h book u).r.isbn = r.isbn
        ∧ (r.Create h book u).r.books.len = r.books.len
        ∧ ((r.Create h book u).heap.read book).ID = (h.read book).ID)
    ∧ ((r.Update h book).err ≠ none →
        ((r.Update h book).err = some ErrBookNotFound
          ∨ (r.Update h book).err = some ErrBookAlreadyExists)
        ∧ (r.Update h book).r = r ∧ (r.Update h book).heap = h
        ∧ (r.Update h book).r.books = r.books ∧ (r.Update h book).r.isbn = r.isbn
        ∧ (r.Update h book).r.books.len = r.books.len)
    ∧ ((r.Delete h id).err ≠ none →
        (r.Delete h id).err = some ErrBookNotFound
        ∧ (r.Delete h id).r = r ∧ (r.Delete h id).heap = h
        ∧ (r.Delete h id).r.books = r.books ∧ (r.Delete h id).r.isbn = r.isbn
        ∧ (r.Delete h id).r.books.len = r.books.len) := by
  refine ⟨?_, ?_, ?_⟩
  · unfold InMemoryBookRepository.Create
    split_ifs with hk
    · intro _; exact ⟨rfl, rfl, rfl, rfl, rfl, rfl, rfl⟩
    · intro hc; exact absurd rfl hc
  · unfold InMemoryBookRepository.Update
    cases r.books.get (h.read book).ID with
    | none => intro _; exact ⟨Or.inl rfl, rfl, rfl, rfl, rfl, rfl⟩
    | some existing =>
      simp only []
      split_ifs with h1 h2
      · intro _; exact ⟨Or.inr rfl, rfl, rfl, rfl, rfl, rfl⟩
      · intro hc; exact absurd rfl hc
      · intro hc; exact absurd rfl hc
  · unfold InMemoryBookRepository.Delete
    cases r.books.get id with
    | none => intro _; exact ⟨rfl, rfl, rfl, rfl, rfl, rfl⟩
    | some p => intro hc; exact absurd rfl hc

/-- C8 at concrete inputs: in the store of two books, creating a record with the ISBN of
`cleanCode`, updating the second record to that ISBN and deleting an unknown identifier all
fail and leave the store as it was. -/
theorem failed_call_changes_nothing_witness :
    (twoBooks.r.Create twoBooks.heap 0 sampleUUID2).r = twoBooks.r
      ∧ (twoBooks.r.Update twoBooks.heap 2).r = twoBooks.r
      ∧ (twoBooks.r.Delete twoBooks.heap "nonexistent".toList).r = twoBooks.r :=
  ⟨((failed_call_changes_nothing twoBooks.r twoBooks.heap 0 sampleUUID2 []).1
      (by decide)).2.1,
   ((failed_call_changes_nothing twoBooks.r twoBooks.heap 2 sampleUUID2 []).2.1
      (by decide)).2.1,
   ((failed_call_changes_nothing twoBooks.r twoBooks.heap 0 sampleUUID2
      "nonexistent".toList).2.2 (by decide)).2.1⟩

/-! ## Dual-index consistency is preserved -/

theorem Consistent.insert {r : InMemoryBookRepository} {h : Heap} (hc : Consistent r h)
    (h' : Heap) (n : Addr) (b : Book)
    (hframe : ∀ id p, r.books.get id = some p → h'.read p = h.read p)
    (hn : h'.read n = b) (hid : r.books.get b.ID = none) (hk : r.isbn.get b.ISBN = none) :
    Consistent { books := r.books.set b.ID n, isbn := r.isbn.set b.ISBN b.ID } h' := by
  obtain ⟨ha, hb⟩ := hc
  constructor
  · intro k id hget
    simp only at hget ⊢
    by_cases hkk : k = b.ISBN
    · subst hkk
      rw [GoMap.get_set_self] at hget
      cases hget
      exact ⟨n, GoMap.get_set_self _ _ _, by rw [hn], by rw [hn]⟩
    · rw [GoMap.get_set_ne _ _ _ _ hkk] at hget
      obtain ⟨p, hp, h1, h2⟩ := ha k id hget
      have hne : id ≠ b.ID := by
        intro he; rw [he, hid] at hp; cases hp
      refine ⟨p, ?_, ?_, ?_⟩
      · rw [GoMap.get_set_ne _ _ _ _ hne]; exact hp
      · rw [hframe id p hp]; exact h1
      · rw [hframe id p hp]; exact h2
  · intro id p hget
    simp only at hget ⊢
    by_cases hii : id = b.ID
    · subst hii
      rw [GoMap.get_set_self] at hget
      cases hget
      rw [hn]; exact ⟨rfl, GoMap.get_set_self _ _ _⟩
    · rw [GoMap.get_set_ne _ _ _ _ hii] at hget
      obtain ⟨h1, h2⟩ := hb id p hget
      rw [hframe id p hget]
      refine ⟨h1, ?_⟩
      have hne : (h.read p).ISBN ≠ b.ISBN := by
        intro he; rw [he, hk] at h2; cases h2
      rw [GoMap.get_set_ne _ _ _ _ hne]; exact h2

theorem Consistent.replaceSameISBN {r : InMemoryBookRepository} {h : Heap}
    (hc : Consistent r h) (h' : Heap) (n e : Addr) (b : Book)
    (hframe : ∀ id p, r.books.get id = some p → h'.read p = h.read p)
    (hn : h'.read n = b) (he : r.books.get b.ID = some e)
    (hk : (h.read e).ISBN = b.ISBN) :
    Consistent { books := r.books.set b.ID n, isbn := r.isbn } h' := by
  obtain ⟨ha, hb⟩ := hc
  constructor
  · intro k id hget
    simp only at hget ⊢
    obtain ⟨p, hp, h1, h2⟩ := ha k id hget
    by_cases hii : id = b.ID
    · subst hii
      rw [he] at hp
      cases hp
      exact ⟨n, GoMap.get_set_self _ _ _, by rw [hn, ← hk, h1], by rw [hn]⟩
    · refine ⟨p, ?_, ?_, ?_⟩
      · rw [GoMap.get_set_ne _ _ _ _ hii]; exact hp
      · rw [hframe id p hp]; exact h1
      · rw [hframe id p hp]; exact h2
  · intro id p hget
    simp only at hget ⊢
    by_cases hii : id = b.ID
    · subst hii
      rw [GoMap.get_set_self] at hget
      cases hget
      rw [hn]
      refine ⟨rfl, ?_⟩
      rw [← hk]; exact (hb _ _ he).2
    · rw [GoMap.get_set_ne _ _ _ _ hii] at hget
      rw [hframe id p hget]
      exact hb id p hget

theorem Consistent.replaceNewISBN {r : InMemoryBookRepository} {h : Heap}
    (hc : Consistent r h) (h' : Heap) (n e : Addr) (b : Book)
    (hframe : ∀ id p, r.books.get id = some p → h'.read p = h.read p)
    (hn : h'.read n = b) (he : r.books.get b.ID = some e)
    (hk : r.isbn.get b.ISBN = none) :
    Consistent { books := r.books.set b.ID n,
                 isbn := (r.isbn.delete (h.read e).ISBN).set b.ISBN b.ID } h' := by
  obtain ⟨ha, hb⟩ := hc
  have hE := hb _ _ he
  constructor
  · intro k id hget
    simp only at hget ⊢
    by_cases hkk : k = b.ISBN
    · subst hkk
      rw [GoMap.get_set_self] at hget
      cases hget
      exact ⟨n, GoMap.get_set_self _ _ _, by rw [hn], by rw [hn]⟩
    · rw [GoMap.get_set_ne _ _ _ _ hkk] at hget
      have hke : k ≠ (h.read e).ISBN := by
        intro hh; rw [hh, GoMap.get_delete_self] at hget; cases hget
      rw [GoMap.get_delete_ne _ _ _ hke] at hget
      obtain ⟨p, hp, h1, h2⟩ := ha k id hget
      have hne : id ≠ b.ID := by
        intro hh
        rw [hh, he] at hp
        cases hp
        exact hke h1.symm
      refine ⟨p, ?_, ?_, ?_⟩
      · rw [GoMap.get_set_ne _ _ _ _ hne]; exact hp
      · rw [hframe id p hp]; exact h1
      · rw [hframe id p hp]; exact h2
  · intro id p hget
    simp only at hget ⊢
    by_cases hii : id = b.ID
    · subst hii
      rw [GoMap.get_set_self] at hget
      cases hget
      rw [hn]; exact ⟨rfl, GoMap.get_set_self _ _ _⟩
    · rw [GoMap.get_set_ne _ _ _ _ hii] at hget
      obtain ⟨h1, h2⟩ := hb id p hget
      rw [hframe id p hget]
      refine ⟨h1, ?_⟩
      have hne : (h.read p).ISBN ≠ b.ISBN := by
        intro hh; rw [hh, hk] at h2; cases h2
      have hne2 : (h.read p).ISBN ≠ (h.read e).ISBN := by
        intro hh
        rw [hh, hE.2] at h2
        cases h2
        exact hii rfl
      rw [GoMap.get_set_ne _ _ _ _ hne, GoMap.get_delete_ne _ _ _ hne2]; exact h2

theorem Consistent.remove {r : InMemoryBookRepository} {h : Heap} (hc : Consistent r h)
    (id : GoString) (e : Addr) (he : r.books.get id = some e) :
    Consistent { books := r.books.delete id, isbn := r.isbn.delete (h.read e).ISBN } h := by
  obtain ⟨ha, hb⟩ := hc
  have hE := hb _ _ he
  constructor
  · intro k id' hget
    simp only at hget ⊢
    have hke : k ≠ (h.read e).ISBN := by
      intro hh; rw [hh, GoMap.get_delete_self] at hget; cases hget
    rw [GoMap.get_delete_ne _ _ _ hke] at hget
    obtain ⟨p, hp, h1, h2⟩ := ha k id' hget
    have hne : id' ≠ id := by
      intro hh
      rw [hh, he] at hp
      cases hp
      exact hke h1.symm
    exact ⟨p, by rw [GoMap.get_delete_ne _ _ _ hne]; exact hp, h1, h2⟩
  · intro id' p hget
    simp only at hget ⊢
    have hne : id' ≠ id := by
      intro hh; rw [hh, GoMap.get_delete_self] at hget; cases hget
    rw [GoMap.get_delete_ne _ _ _ hne] at hget
    obtain ⟨h1, h2⟩ := hb id' p hget
    refine ⟨h1, ?_⟩
    have hne2 : (h.read p).ISBN ≠ (h.read e).ISBN := by
      intro hh
      rw [hh, hE.2] at h2
      cases h2
      exact hne rfl
    rw [GoMap.get_delete_ne _ _ _ hne2]; exact h2

theorem Consistent.frame {r : InMemoryBookRepository} {h : Heap} (hc : Consistent r h)
    (h' : Heap) (hframe : ∀ id p, r.books.get id = some p → h'.read p = h.read p) :
    Consistent r h' := by
  obtain ⟨ha, hb⟩ := hc
  constructor
  · intro k id hget
    obtain ⟨p, hp, h1, h2⟩ := ha k id hget
    exact ⟨p, hp, by rw [hframe id p hp]; exact h1, by rw [hframe id p hp]; exact h2⟩
  · intro id p hget
    rw [hframe id p hget]
    exact hb id p hget

theorem StoredValid.set {r : InMemoryBookRepository} {h : Heap} (hs : StoredValid r h)
    (h' : Heap) (isbn : GoMap GoString) (id : GoString) (n : Addr)
    (hlen : h.length ≤ h'.length) (hn : n < h'.length) :
    StoredValid { books := r.books.set id n, isbn := isbn } h' := by
  intro id' p hget
  simp only at hget
  by_cases hii : id' = id
  · subst hii
    rw [GoMap.get_set_self] at hget
    cases hget
    exact hn
  · rw [GoMap.get_set_ne _ _ _ _ hii] at hget
    exact Nat.lt_of_lt_of_le (hs id' p hget) hlen

theorem StoreInv.new (h : Heap) : StoreInv NewInMemoryBookRepository h := by
  refine ⟨⟨?_, ?_⟩, ?_, ?_, ?_⟩
  · intro k id hget; cases hget
  · intro id p hget; cases hget
  · intro id p hget; cases hget
  · exact List.nodup_nil
  · exact List.nodup_nil

theorem StoreInv.callerNew {r : InMemoryBookRepository} {h : Heap} (hi : StoreInv r h)
    (b : Book) : StoreInv r (h.alloc b).2 := by
  obtain ⟨hc, hs, hn1, hn2⟩ := hi
  refine ⟨hc.frame _ (fun id p hp => Heap.read_alloc_old h b p (hs id p hp)), ?_, hn1, hn2⟩
  intro id p hp
  have hp' : p < h.length := hs id p hp
  show p < (h.alloc b).2.length
  rw [Heap.length_alloc]
  exact Nat.lt_succ_of_lt hp'

theorem StoreInv.callerSet {r : InMemoryBookRepository} {h : Heap} (hi : StoreInv r h)
    (a : Addr) (b : Book) (ha : ∀ id, r.books.get id ≠ some a) : StoreInv r (h.write a b) := by
  obtain ⟨hc, hs, hn1, hn2⟩ := hi
  refine ⟨hc.frame _ (fun id p hp => Heap.read_write_ne h a p b ?_), ?_, hn1, hn2⟩
  · intro he; rw [he] at hp; exact ha id hp
  · intro id p hp
    have hp' : p < h.length := hs id p hp
    show p < (h.write a b).length
    rw [Heap.length_write]
    exact hp'

theorem StoreInv.Create {r : InMemoryBookRepository} {h : Heap} (hi : StoreInv r h)
    (book : Addr) (u : UUID) (hv : h.valid book) (hfresh : r.books.get u.String = none) :
    StoreInv (r.Create h book u).r (r.Create h book u).heap := by
  by_cases hk : (r.isbn.get (h.read book).ISBN).isSome = true
  · rw [Create_of_isbn_present r h book u hk]; exact hi
  · have hk' : r.isbn.get (h.read book).ISBN = none := by
      cases hg : r.isbn.get (h.read book).ISBN with
      | none => rfl
      | some v => rw [hg] at hk; simp at hk
    rw [Create_of_isbn_absent r h book u hv hk']
    obtain ⟨hc, hs, hn1, hn2⟩ := hi
    have hlen := Heap.length_write h book { h.read book with ID := u.String }
    have hframe : ∀ id p, r.books.get id = some p →
        Heap.read (h.write book { h.read book with ID := u.String }
          ++ [{ h.read book with ID := u.String }]) p = h.read p := by
      intro id p hp
      have hpv : p < h.length := hs id p hp
      have hne : p ≠ book := by
        intro he
        rw [he] at hp
        have := (hc.2 id book hp).2
        rw [hk'] at this
        cases this
      have h1 := Heap.read_alloc_old (h.write book { h.read book with ID := u.String })
        { h.read book with ID := u.String } p (by rw [hlen]; exact hpv)
      simp only [Heap.alloc] at h1
      rw [h1, Heap.read_write_ne h book p _ hne]
    have hnew : Heap.read (h.write book { h.read book with ID := u.String }
          ++ [{ h.read book with ID := u.String }]) h.length
        = { h.read book with ID := u.String } := by
      have h2 := Heap.read_alloc_new (h.write book { h.read book with ID := u.String })
        { h.read book with ID := u.String }
      simp only [Heap.alloc, hlen] at h2
      exact h2
    refine ⟨hc.insert _ h.length { h.read book with ID := u.String } hframe hnew hfresh hk',
      ?_, GoMap.keys_set_nodup _ _ _ hn1, GoMap.keys_set_nodup _ _ _ hn2⟩
    apply hs.set
    · simp [Heap.write]
    · simp [Heap.write]

theorem Update_of_absent (r : InMemoryBookRepository) (h : Heap) (book : Addr)
    (hg : r.books.get (h.read book).ID = none) :
    r.Update h book = { err := some ErrBookNotFound, r := r, heap := h } := by
  simp [InMemoryBookRepository.Update, hg]

theorem Update_of_conflict (r : InMemoryBookRepository) (h : Heap) (book existing : Addr)
    (hg : r.books.get (h.read book).ID = some existing)
    (hne : (h.read existing).ISBN ≠ (h.read book).ISBN)
    (hk : (r.isbn.get (h.read book).ISBN).isSome = true) :
    r.Update h book = { err := some ErrBookAlreadyExists, r := r, heap := h } := by
  simp [InMemoryBookRepository.Update, hg, hne, hk]

theorem Update_of_newISBN (r : InMemoryBookRepository) (h : Heap) (book existing : Addr)
    (hg : r.books.get (h.read book).ID = some existing)
    (hne : (h.read existing).ISBN ≠ (h.read book).ISBN)
    (hk : r.isbn.get (h.read book).ISBN = none) :
    r.Update h book =
      { err := none,
        r := { books := r.books.set (h.read book).ID h.length,
               isbn := (r.isbn.delete (h.read existing).ISBN).set (h.read book).ISBN
                         (h.read book).ID },
        heap := h ++ [h.read book] } := by
  simp [InMemoryBookRepository.Update, hg, hne, hk, Heap.alloc]

theorem Update_of_sameISBN (r : InMemoryBookRepository) (h : Heap) (book existing : Addr)
    (hg : r.books.get (h.read book).ID = some existing)
    (heq : (h.read existing).ISBN = (h.read book).ISBN) :
    r.Update h book =
      { err := none,
        r := { books := r.books.set (h.read book).ID h.length, isbn := r.isbn },
        heap := h ++ [h.read book] } := by
  simp [InMemoryBookRepository.Update, hg, heq, Heap.alloc]

theorem StoreInv.Update {r : InMemoryBookRepository} {h : Heap} (hi : StoreInv r h)
    (book : Addr) : StoreInv (r.Update h book).r (r.Update h book).heap := by
  obtain ⟨hc, hs, hn1, hn2⟩ := hi
  have hframe : ∀ id p, r.books.get id = some p →
      Heap.read (h ++ [h.read book]) p = h.read p := fun id p hp =>
    Heap.read_alloc_old h (h.read book) p (hs id p hp)
  have hnew : Heap.read (h ++ [h.read book]) h.length = h.read book :=
    Heap.read_alloc_new h (h.read book)
  cases hg : r.books.get (h.read book).ID with
  | none => rw [Update_of_absent r h book hg]; exact ⟨hc, hs, hn1, hn2⟩
  | some existing =>
    by_cases hne : (h.read existing).ISBN = (h.read book).ISBN
    · rw [Update_of_sameISBN r h book existing hg hne]
      refine ⟨hc.replaceSameISBN _ h.length existing (h.read book) hframe hnew hg hne, ?_,
        GoMap.keys_set_nodup _ _ _ hn1, hn2⟩
      apply hs.set <;> simp
    · cases hk : r.isbn.get (h.read book).ISBN with
      | some v =>
        rw [Update_of_conflict r h book existing hg hne (by rw [hk]; rfl)]
        exact ⟨hc, hs, hn1, hn2⟩
      | none =>
        rw [Update_of_newISBN r h book existing hg hne hk]
        refine ⟨hc.replaceNewISBN _ h.length existing (h.read book) hframe hnew hg hk, ?_,
          GoMap.keys_set_nodup _ _ _ hn1,
          GoMap.keys_set_nodup _ _ _ (GoMap.keys_delete_nodup _ _ hn2)⟩
        apply hs.set <;> simp

theorem StoreInv.Delete {r : InMemoryBookRepository} {h : Heap} (hi : StoreInv r h)
    (id : GoString) : StoreInv (r.Delete h id).r (r.Delete h id).heap := by
  obtain ⟨hc, hs, hn1, hn2⟩ := hi
  unfold InMemoryBookRepository.Delete
  cases hg : r.books.get id with
  | none => exact ⟨hc, hs, hn1, hn2⟩
  | some e =>
    refine ⟨hc.remove id e hg, ?_, GoMap.keys_delete_nodup _ _ hn1,
      GoMap.keys_delete_nodup _ _ hn2⟩
    intro id' p hget
    simp only at hget
    have hne : id' ≠ id := by
      intro hh; rw [hh, GoMap.get_delete_self] at hget; cases hget
    rw [GoMap.get_delete_ne _ _ _ hne] at hget
    exact hs id' p hget

theorem Reachable.storeInv {r : InMemoryBookRepository} {h : Heap} (hr : Reachable r h) :
    StoreInv r h := by
  induction hr with
  | new h => exact StoreInv.new h
  | callerNew b _ ih => exact ih.callerNew b
  | callerSet a b _ ha ih => exact ih.callerSet a b ha
  | create book u _ hv hf ih => exact ih.Create book u hv hf
  | update book _ _ ih => exact ih.Update book
  | delete id _ ih => exact ih.Delete id

theorem Consistent.len_eq {r : InMemoryBookRepository} {h : Heap} (hc : Consistent r h)
    (hn1 : r.books.keys.Nodup) (hn2 : r.isbn.keys.Nodup) : r.books.len = r.isbn.len := by
  obtain ⟨ha, hb⟩ := hc
  have hvals : (r.isbn.entries.map Prod.snd).Nodup := by
    apply List.Nodup.map_on _ (List.Nodup.of_map Prod.fst hn2)
    rintro ⟨k1, id1⟩ hm1 ⟨k2, id2⟩ hm2 heq
    simp only at heq
    subst heq
    obtain ⟨p1, hp1, hk1, _⟩ := ha k1 id1 (GoMap.get_eq_some_of_mem _ _ _ hn2 hm1)
    obtain ⟨p2, hp2, hk2, _⟩ := ha k2 id1 (GoMap.get_eq_some_of_mem _ _ _ hn2 hm2)
    rw [hp1] at hp2
    cases hp2
    rw [← hk1, ← hk2]
  have hperm : r.books.keys.Perm (r.isbn.entries.map Prod.snd) := by
    rw [List.perm_ext_iff_of_nodup hn1 hvals]
    intro id
    constructor
    · intro hm
      rw [← GoMap.get_isSome_iff] at hm
      cases hg : r.books.get id with
      | none => rw [hg] at hm; cases hm
      | some p =>
        have := GoMap.mem_of_get_eq_some _ _ _ (hb id p hg).2
        exact List.mem_map.2 ⟨_, this, rfl⟩
    · intro hm
      obtain ⟨⟨k, id'⟩, hmem, hid⟩ := List.mem_map.1 hm
      simp only at hid
      subst hid
      obtain ⟨p, hp, _, _⟩ := ha k id' (GoMap.get_eq_some_of_mem _ _ _ hn2 hmem)
      rw [← GoMap.get_isSome_iff, hp]
      rfl
  have := hperm.length_eq
  simpa [GoMap.len, GoMap.keys] using this

/-- Dual-index consistency when callers assign only to records of their own: in every
state of `Reachable`, that is reached from `NewInMemoryBookRepository()` by calls of `Create`
(each with a generated identifier not yet in use), `Update` and `Delete`, (a) every entry
`isbn[k] = id` has a record `books[id]` with ISBN `k` and ID `id`, and (b) every record
`b = books[id]` has `b.ID = id` and `isbn[b.ISBN] = id`. Hence the two maps have the same
size (each map holds every key once, so `len` counts keys) and no two records stored under
different identifiers share an ISBN. -/
theorem reachable_dual_index_consistent (r : InMemoryBookRepository) (h : Heap)
    (hr : Reachable r h) :
    (∀ k id, r.isbn.get k = some id →
        ∃ p, r.books.get id = some p ∧ (h.read p).ISBN = k ∧ (h.read p).ID = id)
    ∧ (∀ id p, r.books.get id = some p →
        (h.read p).ID = id ∧ r.isbn.get (h.read p).ISBN = some id)
    ∧ r.books.len = r.isbn.len
    ∧ r.books.keys.Nodup ∧ r.isbn.keys.Nodup
    ∧ (∀ id1 id2 p1 p2, r.books.get id1 = some p1 → r.books.get id2 = some p2 →
        id1 ≠ id2 → (h.read p1).ISBN ≠ (h.read p2).ISBN) := by
  obtain ⟨hc, _, hn1, hn2⟩ := hr.storeInv
  refine ⟨hc.1, hc.2, hc.len_eq hn1 hn2, hn1, hn2, ?_⟩
  intro id1 id2 p1 p2 h1 h2 hne heq
  have e1 := (hc.2 id1 p1 h1).2
  have e2 := (hc.2 id2 p2 h2).2
  rw [heq, e2] at e1
  cases e1
  exact hne rfl

theorem twoBooks_reachable : Reachable twoBooks.r twoBooks.heap :=
  Reachable.create 1 sampleUUID2
    (Reachable.create 0 sampleUUID1 (Reachable.new callerRecords) (by decide) (by decide))
    (by decide) (by decide)

/-- An example of the above: after two creations, the failed update of the second record
onto the first one's ISBN, and the deletion of the first record, the one remaining entry of
each index agrees with the other. -/
theorem reachable_dual_index_consistent_witness :
    ((twoBooks.r.Update twoBooks.heap 2).r.Delete (twoBooks.r.Update twoBooks.heap 2).heap
        sampleUUID1.String).r.books.len
      = ((twoBooks.r.Update twoBooks.heap 2).r.Delete (twoBooks.r.Update twoBooks.heap 2).heap
        sampleUUID1.String).r.isbn.len :=
  (reachable_dual_index_consistent _ _
    (Reachable.delete sampleUUID1.String
      (Reachable.update 2 twoBooks_reachable (by decide)))).2.2.1

/-- C10: in a consistent state, `Update` returns `ErrBookNotFound` exactly when no record
is stored under the argument's ID. When a record `existing` is stored there, it returns
`ErrBookAlreadyExists` exactly when the argument's ISBN differs from that of `existing` and
the `isbn` index maps the argument's ISBN to a different identifier; in every other case it
returns no error. In the `ErrBookAlreadyExists` case `FindByID` of the argument's ID still
returns the pointer `existing`, and the record it points to is unchanged. -/
theorem Update_outcome (r : InMemoryBookRepository) (h : Heap) (book : Addr)
    (hc : Consistent r h) :
    ((r.Update h book).err = some ErrBookNotFound ↔ r.books.get (h.read book).ID = none)
    ∧ (∀ existing, r.books.get (h.read book).ID = some existing →
        ((r.Update h book).err = some ErrBookAlreadyExists ↔
            ((h.read book).ISBN ≠ (h.read existing).ISBN
              ∧ ∃ id', r.isbn.get (h.read book).ISBN = some id' ∧ id' ≠ (h.read book).ID))
        ∧ ((r.Update h book).err ≠ some ErrBookAlreadyExists → (r.Update h book).err = none)
        ∧ ((r.Update h book).err = some ErrBookAlreadyExists →
            (r.Update h book).r.FindByID (h.read book).ID = (some existing, none)
            ∧ r.FindByID (h.read book).ID = (some existing, none)
            ∧ (r.Update h book).heap.read existing = h.read existing)) := by
  constructor
  · cases hg : r.books.get (h.read book).ID with
    | none => rw [Update_of_absent r h book hg]; simp
    | some existing =>
      simp only [reduceCtorEq, iff_false]
      by_cases hne : (h.read existing).ISBN = (h.read book).ISBN
      · rw [Update_of_sameISBN r h book existing hg hne]; simp
      · cases hk : r.isbn.get (h.read book).ISBN with
        | some v =>
          rw [Update_of_conflict r h book existing hg hne (by rw [hk]; rfl)]
          intro hx
          exact ErrBookNotFound_ne_AlreadyExists (Option.some.inj hx).symm
        | none => rw [Update_of_newISBN r h book existing hg hne hk]; simp
  · intro existing hg
    have hfind : r.FindByID (h.read book).ID = (some existing, none) := by
      simp [InMemoryBookRepository.FindByID, hg]
    by_cases hne : (h.read existing).ISBN = (h.read book).ISBN
    · rw [Update_of_sameISBN r h book existing hg hne]
      refine ⟨?_, fun _ => rfl, fun hc' => by cases hc'⟩
      simp only [reduceCtorEq, false_iff, not_and]
      intro hh; exact absurd hne.symm hh
    · cases hk : r.isbn.get (h.read book).ISBN with
      | some v =>
        rw [Update_of_conflict r h book existing hg hne (by rw [hk]; rfl)]
        refine ⟨?_, fun hc' => absurd rfl hc', fun _ => ⟨hfind, hfind, rfl⟩⟩
        simp only [true_iff]
        refine ⟨fun hh => hne hh.symm, v, rfl, ?_⟩
        intro hv
        obtain ⟨p, hp, hp1, _⟩ := hc.1 _ _ hk
        rw [hv, hg] at hp
        cases hp
        exact hne hp1
      | none =>
        rw [Update_of_newISBN r h book existing hg hne hk]
        refine ⟨?_, fun _ => rfl, fun hc' => by cases hc'⟩
        simp

/-- C10 at a concrete input: in the store of two books, updating the second record to the
ISBN of the first returns `ErrBookAlreadyExists`. -/
theorem Update_outcome_witness :
    (twoBooks.r.Update twoBooks.heap 2).err = some ErrBookAlreadyExists :=
  ((Update_outcome twoBooks.r twoBooks.heap 2 twoBooks_reachable.storeInv.1).2 4
    (by decide)).1.2 ⟨by decide, sampleUUID1.String, by decide, by decide⟩

/-! ## `Update` that moves an ISBN, `Delete`, `FindByISBN` -/

theorem GoMap.len_delete {V : Type} (m : GoMap V) (k : GoString) (hn : m.keys.Nodup)
    (hk : k ∈ m.keys) : (m.delete k).len + 1 = m.len := by
  obtain ⟨l⟩ := m
  simp only [GoMap.keys, GoMap.delete, GoMap.len] at hn hk ⊢
  induction l with
  | nil => simp at hk
  | cons e l ih =>
    simp only [List.map_cons, List.nodup_cons] at hn
    by_cases he : e.1 = k
    · rw [List.filter_cons_of_neg (by simp [he])]
      have hnot : k ∉ l.map Prod.fst := by rw [← he]; exact hn.1
      have hall : l.filter (fun e => decide (e.1 ≠ k)) = l := by
        apply List.filter_eq_self.2
        intro a ha
        have : a.1 ≠ k := fun hh => hnot (hh ▸ List.mem_map.2 ⟨a, ha, rfl⟩)
        simp [this]
      rw [hall]
      rfl
    · rw [List.filter_cons_of_pos (by simp [he])]
      have hk' : k ∈ l.map Prod.fst := by
        rw [List.map_cons] at hk
        rcases List.mem_cons.1 hk with h | h
        · exact absurd h.symm he
        · exact h
      have := ih hn.2 hk'
      simp only [List.length_cons]
      omega

theorem GoMap.len_set_new {V : Type} (m : GoMap V) (k : GoString) (v : V)
    (hk : m.get k = none) : (m.set k v).len = m.len + 1 := by
  rw [GoMap.get_eq_none_iff] at hk
  obtain ⟨l⟩ := m
  simp only [GoMap.keys, GoMap.set, GoMap.delete, GoMap.len, List.length_cons] at hk ⊢
  have hall : l.filter (fun e => decide (e.1 ≠ k)) = l := by
    apply List.filter_eq_self.2
    intro a ha
    have : a.1 ≠ k := fun hh => hk (hh ▸ List.mem_map.2 ⟨a, ha, rfl⟩)
    simp [this]
  rw [hall]

theorem FindByID_of_get (r : InMemoryBookRepository) (id : GoString) (p : Addr)
    (hg : r.books.get id = some p) : r.FindByID id = (some p, none) := by
  simp [InMemoryBookRepository.FindByID, hg]

theorem FindByID_of_absent (r : InMemoryBookRepository) (id : GoString)
    (hg : r.books.get id = none) : r.FindByID id = (none, some ErrBookNotFound) := by
  simp [InMemoryBookRepository.FindByID, hg]

theorem FindByISBN_of_absent (r : InMemoryBookRepository) (x : GoString)
    (hg : r.isbn.get x = none) : r.FindByISBN x = (none, some ErrBookNotFound) := by
  simp [InMemoryBookRepository.FindByISBN, hg]

theorem FindByISBN_of_get (r : InMemoryBookRepository) (x id : GoString)
    (hg : r.isbn.get x = some id) : r.FindByISBN x = (r.books.get id, none) := by
  simp [InMemoryBookRepository.FindByISBN, hg]

/-- C11: in a consistent state whose stored pointers are live, a successful `Update(book)`
that finds the record `existing` under the argument's ID with an ISBN `a` different from the
argument's ISBN `b` has this effect: `FindByISBN(a)` returns `ErrBookNotFound`;
`FindByISBN(b)` and `FindByID(book.ID)` return, without error, one pointer to a record equal
to the argument; under every other identifier the primary index holds the same pointer to
the same unchanged record, whose ISBN is neither `a` nor `b`, and the secondary index is
unchanged at every key other than `a` and `b`. -/
theorem Update_moves_isbn (r : InMemoryBookRepository) (h : Heap) (book existing : Addr)
    (hc : Consistent r h) (hs : StoredValid r h)
    (hg : r.books.get (h.read book).ID = some existing)
    (hne : (h.read existing).ISBN ≠ (h.read book).ISBN)
    (hok : (r.Update h book).err = none) :
    (r.Update h book).r.FindByISBN (h.read existing).ISBN = (none, some ErrBookNotFound)
    ∧ (∃ p, (r.Update h book).r.FindByISBN (h.read book).ISBN = (some p, none)
          ∧ (r.Update h book).r.FindByID (h.read book).ID = (some p, none)
          ∧ (r.Update h book).heap.read p = h.read book)
    ∧ (∀ id', id' ≠ (h.read book).ID →
          (r.Update h book).r.books.get id' = r.books.get id')
    ∧ (∀ k, k ≠ (h.read existing).ISBN → k ≠ (h.read book).ISBN →
          (r.Update h book).r.isbn.get k = r.isbn.get k)
    ∧ (∀ id' q, id' ≠ (h.read book).ID → r.books.get id' = some q →
          (r.Update h book).heap.read q = h.read q
          ∧ (h.read q).ISBN ≠ (h.read existing).ISBN ∧ (h.read q).ISBN ≠ (h.read book).ISBN
          ∧ (r.Update h book).r.FindByID id' = (some q, none)
          ∧ (r.Update h book).r.FindByISBN (h.read q).ISBN = (some q, none)) := by
  have hk : r.isbn.get (h.read book).ISBN = none := by
    cases hk : r.isbn.get (h.read book).ISBN with
    | none => rfl
    | some v =>
      rw [Update_of_conflict r h book existing hg hne (by rw [hk]; rfl)] at hok
      cases hok
  rw [Update_of_newISBN r h book existing hg hne hk]
  have hbooks : ∀ id', id' ≠ (h.read book).ID →
      (r.books.set (h.read book).ID h.length).get id' = r.books.get id' :=
    fun id' hid => GoMap.get_set_ne _ _ _ _ hid
  have hisbn : ∀ k, k ≠ (h.read existing).ISBN → k ≠ (h.read book).ISBN →
      ((r.isbn.delete (h.read existing).ISBN).set (h.read book).ISBN (h.read book).ID).get k
        = r.isbn.get k := by
    intro k hk1 hk2
    rw [GoMap.get_set_ne _ _ _ _ hk2, GoMap.get_delete_ne _ _ _ hk1]
  refine ⟨?_, ⟨h.length, ?_, ?_, Heap.read_alloc_new h (h.read book)⟩, hbooks, hisbn, ?_⟩
  · apply FindByISBN_of_absent
    show ((r.isbn.delete (h.read existing).ISBN).set (h.read book).ISBN (h.read book).ID).get
      (h.read existing).ISBN = none
    rw [GoMap.get_set_ne _ _ _ _ hne, GoMap.get_delete_self]
  · rw [FindByISBN_of_get _ _ (h.read book).ID (GoMap.get_set_self _ _ _)]
    show ((r.books.set (h.read book).ID h.length).get (h.read book).ID, _) = _
    rw [GoMap.get_set_self]
  · exact FindByID_of_get _ _ _ (GoMap.get_set_self _ _ _)
  · intro id' q hid hq
    have hq2 := hc.2 id' q hq
    have hE := hc.2 _ _ hg
    have h1 : (h.read q).ISBN ≠ (h.read existing).ISBN := by
      intro hh
      rw [hh, hE.2] at hq2
      exact hid (Option.some.inj hq2.2).symm
    have h2 : (h.read q).ISBN ≠ (h.read book).ISBN := by
      intro hh
      rw [hh, hk] at hq2
      cases hq2.2
    have hget : (r.books.set (h.read book).ID h.length).get id' = some q := by
      rw [hbooks id' hid]; exact hq
    refine ⟨Heap.read_alloc_old h (h.read book) q (hs id' q hq), h1, h2,
      FindByID_of_get _ _ _ hget, ?_⟩
    rw [FindByISBN_of_get _ _ id' (by
      show ((r.isbn.delete (h.read existing).ISBN).set (h.read book).ISBN
        (h.read book).ID).get (h.read q).ISBN = some id'
      rw [hisbn _ h1 h2]; exact hq2.2)]
    show ((r.books.set (h.read book).ID h.length).get id', _) = _
    rw [hget]

theorem twoBooksAndMoved_reachable : Reachable twoBooks.r twoBooksAndMoved :=
  Reachable.callerNew moved twoBooks_reachable

/-- C11 at a concrete input: in the store of two books the second record moves from ISBN
`9780134494166` to `9780321125215`; the old ISBN is no longer found. -/
theorem Update_moves_isbn_witness :
    (twoBooks.r.Update twoBooksAndMoved 5).r.FindByISBN "9780134494166".toList
      = (none, some ErrBookNotFound) :=
  (Update_moves_isbn twoBooks.r twoBooksAndMoved 5 4
    twoBooksAndMoved_reachable.storeInv.1 twoBooksAndMoved_reachable.storeInv.2.1
    (by decide) (by decide) (by decide)).1

/-- C12: in a consistent state (each key held once by the primary index), `Delete(id)`
returns `ErrBookNotFound` exactly when no record is stored under `id`. When a record is
stored there, `Delete` returns no error and afterwards `FindByID(id)` and `FindByISBN` of
the deleted record's ISBN return `ErrBookNotFound`, `len(books)` has decreased by exactly
one, the heap is unchanged, and every record stored under another identifier is still
returned, by the same pointer, by `FindByID` of its identifier and `FindByISBN` of its
ISBN. -/
theorem Delete_spec (r : InMemoryBookRepository) (h : Heap) (id : GoString)
    (hc : Consistent r h) (hn : r.books.keys.Nodup) :
    ((r.Delete h id).err = some ErrBookNotFound ↔ r.books.get id = none)
    ∧ (∀ p, r.books.get id = some p →
        (r.Delete h id).err = none
        ∧ (r.Delete h id).r.FindByID id = (none, some ErrBookNotFound)
        ∧ (r.Delete h id).r.FindByISBN (h.read p).ISBN = (none, some ErrBookNotFound)
        ∧ (r.Delete h id).r.books.len + 1 = r.books.len
        ∧ (r.Delete h id).heap = h
        ∧ (∀ id' q, id' ≠ id → r.books.get id' = some q →
            (r.Delete h id).r.FindByID id' = (some q, none)
            ∧ (r.Delete h id).r.FindByISBN (h.read q).ISBN = (some q, none))) := by
  constructor
  · unfold InMemoryBookRepository.Delete
    cases hg : r.books.get id <;> simp
  · intro p hg
    have hdel : r.Delete h id =
        { err := none,
          r := { books := r.books.delete id, isbn := r.isbn.delete (h.read p).ISBN },
          heap := h } := by
      simp [InMemoryBookRepository.Delete, hg]
    rw [hdel]
    refine ⟨rfl, FindByID_of_absent _ _ (GoMap.get_delete_self _ _),
      FindByISBN_of_absent _ _ (GoMap.get_delete_self _ _), ?_, rfl, ?_⟩
    · apply GoMap.len_delete _ _ hn
      rw [← GoMap.get_isSome_iff, hg]; rfl
    · intro id' q hid hq
      have hq2 := hc.2 id' q hq
      have hE := hc.2 _ _ hg
      have h1 : (h.read q).ISBN ≠ (h.read p).ISBN := by
        intro hh
        rw [hh, hE.2] at hq2
        exact hid (Option.some.inj hq2.2).symm
      have hget : (r.books.delete id).get id' = some q := by
        rw [GoMap.get_delete_ne _ _ _ hid]; exact hq
      refine ⟨FindByID_of_get _ _ _ hget, ?_⟩
      rw [FindByISBN_of_get _ _ id' (by
        show (r.isbn.delete (h.read p).ISBN).get (h.read q).ISBN = some id'
        rw [GoMap.get_delete_ne _ _ _ h1]; exact hq2.2)]
      show ((r.books.delete id).get id', _) = _
      rw [hget]

/-- C12 at a concrete input: deleting the first of two books leaves one record, and the
second is still found by its ISBN. -/
theorem Delete_spec_witness :
    (twoBooks.r.Delete twoBooks.heap sampleUUID1.String).r.books.len + 1 = twoBooks.r.books.len
      ∧ (twoBooks.r.Delete twoBooks.heap sampleUUID1.String).r.FindByISBN
          (twoBooks.heap.read 4).ISBN = (some 4, none) :=
  have h := (Delete_spec twoBooks.r twoBooks.heap sampleUUID1.String
    twoBooks_reachable.storeInv.1 twoBooks_reachable.storeInv.2.2.1).2 3 (by decide)
  ⟨h.2.2.2.1, (h.2.2.2.2.2 sampleUUID2.String 4 (by decide) (by decide)).2⟩

/-- What `FindByISBN` does in a consistent state: it returns `ErrBookNotFound` (with a
`nil` record) exactly when no stored record has ISBN `x`; when some stored record has ISBN
`x`, it returns, with no error, a non-nil pointer to a record with ISBN `x`, the very
pointer `FindByID` returns for that record's ID. In the states of `Reachable`, where callers
assign only to records of their own, it does not return a `nil` record together with a
`nil` error. -/
theorem FindByISBN_spec (r : InMemoryBookRepository) (h : Heap) (x : GoString)
    (hc : Consistent r h) :
    ((r.FindByISBN x).2 = some ErrBookNotFound ↔
        ¬ ∃ id p, r.books.get id = some p ∧ (h.read p).ISBN = x)
    ∧ ((r.FindByISBN x).2 = some ErrBookNotFound → (r.FindByISBN x).1 = none)
    ∧ ((∃ id p, r.books.get id = some p ∧ (h.read p).ISBN = x) →
        ∃ p, r.FindByISBN x = (some p, none) ∧ (h.read p).ISBN = x
          ∧ r.FindByID (h.read p).ID = (some p, none))
    ∧ (∀ r' h', Reachable r' h' → ∀ y, r'.FindByISBN y ≠ (none, none)) := by
  have hfound : ∀ id, r.isbn.get x = some id →
      ∃ p, r.FindByISBN x = (some p, none) ∧ (h.read p).ISBN = x
        ∧ r.FindByID (h.read p).ID = (some p, none) := by
    intro id hk
    obtain ⟨p, hp, h1, h2⟩ := hc.1 x id hk
    refine ⟨p, ?_, h1, ?_⟩
    · rw [FindByISBN_of_get _ _ id hk, hp]
    · rw [h2]; exact FindByID_of_get _ _ _ hp
  refine ⟨?_, ?_, ?_, ?_⟩
  · cases hk : r.isbn.get x with
    | none =>
      rw [FindByISBN_of_absent _ _ hk]
      simp only [true_iff]
      rintro ⟨id, p, hp, hx⟩
      have := (hc.2 id p hp).2
      rw [hx, hk] at this
      cases this
    | some id =>
      obtain ⟨p, hf, h1, _⟩ := hfound id hk
      obtain ⟨q, hq, _, _⟩ := hc.1 x id hk
      rw [hf]
      simp only [reduceCtorEq, false_iff, not_not]
      exact ⟨id, q, hq, by assumption⟩
  · cases hk : r.isbn.get x with
    | none => rw [FindByISBN_of_absent _ _ hk]; intro _; rfl
    | some id =>
      rw [FindByISBN_of_get _ _ id hk]
      intro hh; cases hh
  · rintro ⟨id, p, hp, hx⟩
    have := (hc.2 id p hp).2
    rw [hx] at this
    exact hfound id this
  · intro r' h' hr y
    cases hk : r'.isbn.get y with
    | none =>
      rw [FindByISBN_of_absent _ _ hk]
      intro hh; cases hh
    | some id =>
      obtain ⟨p, hp, _, _⟩ := hr.storeInv.1.1 y id hk
      rw [FindByISBN_of_get _ _ id hk, hp]
      intro hh; cases hh

/-- An example of the above: in the store of two books the ISBN of the second is found, at
the pointer `FindByID` gives for its identifier. -/
theorem FindByISBN_spec_witness :
    ∃ p, twoBooks.r.FindByISBN "9780134494166".toList = (some p, none)
      ∧ (twoBooks.heap.read p).ISBN = "9780134494166".toList
      ∧ twoBooks.r.FindByID (twoBooks.heap.read p).ID = (some p, none) :=
  (FindByISBN_spec twoBooks.r twoBooks.heap "9780134494166".toList
    twoBooks_reachable.storeInv.1).2.2.1 ⟨sampleUUID2.String, 4, by decide, by decide⟩

/-! ## Pointers handed out by the store -/

/-- C13, evaluated on the store holding `cleanCode`: `FindByID`, `FindByISBN` and
`FindAll` all return address 3, the very pointer held in `books`, not the address of a
copy. When the caller then assigns a new title through that pointer, without any call of
`Update`, the repository is untouched and a later `FindByID` of the same identifier returns
a record with the new title. By contrast the record passed to `Create`, at address 0, is
not the stored one: assigning to it afterwards leaves the stored record as it was. -/
theorem find_returns_stored_pointer :
    oneBook.r.books.get sampleUUID1.String = some 3
    ∧ oneBook.r.FindByID sampleUUID1.String = (some 3, none)
    ∧ oneBook.r.FindByISBN "0132350882".toList = (some 3, none)
    ∧ (∀ seed, oneBook.r.FindAll seed = ([3], none))
    ∧ (oneBook.heap.read 3).Title = "Clean Code".toList
    ∧ ((oneBook.heap.write 3 { oneBook.heap.read 3 with Title := "Changed".toList }).read 3).Title
        = "Changed".toList
    ∧ ((oneBook.heap.write 0 { oneBook.heap.read 0 with Title := "Changed".toList }).read 3)
        = oneBook.heap.read 3 := by
  refine ⟨by decide, by decide, by decide, ?_, by decide, by decide, by decide⟩
  intro seed
  have h1 : oneBook.r.books.entries = [(sampleUUID1.String, 3)] := by decide
  show ((arrange oneBook.r.books.entries seed).map Prod.snd, (none : Option DomainError))
    = ([3], none)
  rw [h1]
  simp [arrange, insertAt, Nat.mod_one]

/-- C14, evaluated on the store of two books `A` (`cleanCode`, ISBN `0132350882`) and `B`
(`cleanArchitecture`, ISBN `9780134494166`): `UpdateBook(B.ID, "", "", A.ISBN)` returns `B`'s
pointer and no error. Afterwards the record stored under `B`'s identifier has `A`'s ISBN, as
has the record stored under `A`'s identifier, while the `isbn` index is what it was: it
still maps `9780134494166` to `B`. -/
theorem UpdateBook_accepts_duplicate_isbn :
    (BookService.UpdateBook twoBooks.r twoBooks.heap 9 sampleUUID2.String [] []
        "0132350882".toList).1 = some 4
    ∧ (BookService.UpdateBook twoBooks.r twoBooks.heap 9 sampleUUID2.String [] []
        "0132350882".toList).2.err = none
    ∧ (BookService.UpdateBook twoBooks.r twoBooks.heap 9 sampleUUID2.String [] []
        "0132350882".toList).2.r.FindByID sampleUUID2.String = (some 5, none)
    ∧ ((BookService.UpdateBook twoBooks.r twoBooks.heap 9 sampleUUID2.String [] []
        "0132350882".toList).2.heap.read 5).ISBN = "0132350882".toList
    ∧ (BookService.UpdateBook twoBooks.r twoBooks.heap 9 sampleUUID2.String [] []
        "0132350882".toList).2.r.FindByID sampleUUID1.String = (some 3, none)
    ∧ ((BookService.UpdateBook twoBooks.r twoBooks.heap 9 sampleUUID2.String [] []
        "0132350882".toList).2.heap.read 3).ISBN = "0132350882".toList
    ∧ (BookService.UpdateBook twoBooks.r twoBooks.heap 9 sampleUUID2.String [] []
        "0132350882".toList).2.r.isbn = twoBooks.r.isbn
    ∧ twoBooks.r.isbn.get "9780134494166".toList = some sampleUUID2.String
    ∧ (twoBooks.heap.read 4).ISBN = "9780134494166".toList := by
  decide

/-- C20, evaluated on a store made by the service alone: after a `CreateBook` with valid
fields, `UpdateBook(id, "", "", "not-an-isbn")` returns no error, and the record then stored
under `id` has the ISBN `not-an-isbn`, which is not made of digits and has length 11. -/
theorem UpdateBook_stores_unvalidated_isbn :
    served.2.err = none
    ∧ (BookService.UpdateBook served.2.r served.2.heap 9 sampleUUID1.String [] []
        "not-an-isbn".toList).2.err = none
    ∧ (BookService.UpdateBook served.2.r served.2.heap 9 sampleUUID1.String [] []
        "not-an-isbn".toList).2.r.FindByID sampleUUID1.String = (some 2, none)
    ∧ ((BookService.UpdateBook served.2.r served.2.heap 9 sampleUUID1.String [] []
        "not-an-isbn".toList).2.heap.read 2).ISBN = "not-an-isbn".toList
    ∧ ¬ (∀ c ∈ "not-an-isbn".toList, perlDigit c = true)
    ∧ "not-an-isbn".toList.length = 11
    ∧ validateISBN "not-an-isbn".toList ≠ none := by
  decide

/-! ## `FindAll` -/

theorem insertAt_perm {α : Type} (a : α) (n : Nat) (l : List α) :
    (insertAt a n l).Perm (a :: l) := by
  induction l generalizing n with
  | nil => cases n <;> exact List.Perm.refl _
  | cons x l ih =>
    cases n with
    | zero => exact List.Perm.refl _
    | succ n => exact ((ih n).cons x).trans (List.Perm.swap a x l)

theorem arrange_perm {α : Type} (l : List α) (seed : Nat) : (arrange l seed).Perm l := by
  induction l generalizing seed with
  | nil => exact List.Perm.refl _
  | cons x l ih => exact (insertAt_perm x _ _).trans ((ih _).cons x)

theorem FindAll_perm (r : InMemoryBookRepository) (seed : Nat) :
    (r.FindAll seed).1.Perm (r.books.entries.map Prod.snd) :=
  (arrange_perm r.books.entries seed).map Prod.snd

theorem StoreInv.entry_id {r : InMemoryBookRepository} {h : Heap} (hi : StoreInv r h)
    (e : GoString × Addr) (he : e ∈ r.books.entries) : (h.read e.2).ID = e.1 :=
  (hi.1.2 e.1 e.2 (GoMap.get_eq_some_of_mem _ _ _ hi.2.2.1 he)).1

theorem StoreInv.ids_eq_keys {r : InMemoryBookRepository} {h : Heap} (hi : StoreInv r h) :
    (r.books.entries.map Prod.snd).map (fun p => (h.read p).ID) = r.books.keys := by
  rw [List.map_map]
  exact List.map_congr_left (fun e he => hi.entry_id e he)

theorem CreatedN.reachable {n : Nat} {r : InMemoryBookRepository} {h : Heap}
    (hc : CreatedN n r h) : Reachable r h := by
  induction hc with
  | new h => exact Reachable.new h
  | callerNew b _ ih => exact Reachable.callerNew b ih
  | callerSet a b _ ha ih => exact Reachable.callerSet a b ih ha
  | create book u _ hv hf _ ih => exact Reachable.create book u ih hv hf

theorem CreatedN.len {n : Nat} {r : InMemoryBookRepository} {h : Heap}
    (hc : CreatedN n r h) : r.books.len = n := by
  induction hc with
  | new h => rfl
  | callerNew b _ ih => exact ih
  | callerSet a b _ _ ih => exact ih
  | @create n r h book u _ hv hf hok ih =>
    have hk : r.isbn.get (h.read book).ISBN = none := by
      cases hk : r.isbn.get (h.read book).ISBN with
      | none => rfl
      | some v =>
        rw [Create_of_isbn_present r h book u (by rw [hk]; rfl)] at hok
        cases hok
    rw [Create_of_isbn_absent r h book u hv hk]
    show (r.books.set u.String h.length).len = n + 1
    rw [GoMap.len_set_new _ _ _ hf, ih]

/-- The result of `FindAll` when callers assign only to records of their own: `FindAll`
never fails and its result has as many elements as `books` has entries, in every state. In
every state of `Reachable` the result holds every stored record exactly once: its pointers are pairwise distinct, and the
IDs of the records they point to are, up to order, the keys of `books` (each key once). On a
new store the result is empty, and in a state reached by exactly `n` successful calls of
`Create` the result has `n` elements whose IDs are pairwise distinct. -/
theorem FindAll_snapshot (r : InMemoryBookRepository) (h : Heap) (seed : Nat)
    (hr : Reachable r h) :
    (∀ (r' : InMemoryBookRepository) (seed' : Nat),
        (r'.FindAll seed').2 = none ∧ (r'.FindAll seed').1.length = r'.books.len)
    ∧ (r.FindAll seed).1.Nodup
    ∧ ((r.FindAll seed).1.map fun p => (h.read p).ID).Perm r.books.keys
    ∧ r.books.keys.Nodup
    ∧ (∀ id, id ∈ ((r.FindAll seed).1.map fun p => (h.read p).ID) ↔ id ∈ r.books.keys)
    ∧ NewInMemoryBookRepository.FindAll seed = ([], none)
    ∧ (∀ n, CreatedN n r h →
        (r.FindAll seed).1.length = n
        ∧ ((r.FindAll seed).1.map fun p => (h.read p).ID).Nodup) := by
  have hi := hr.storeInv
  have hperm := FindAll_perm r seed
  have hids : ((r.FindAll seed).1.map fun p => (h.read p).ID).Perm r.books.keys := by
    have := hperm.map (fun p => (h.read p).ID)
    rw [hi.ids_eq_keys] at this
    exact this
  have hvals : (r.books.entries.map Prod.snd).Nodup := by
    apply List.Nodup.map_on _ (List.Nodup.of_map Prod.fst hi.2.2.1)
    intro e1 he1 e2 he2 heq
    have h1 := hi.entry_id e1 he1
    have h2 := hi.entry_id e2 he2
    rw [heq, h2] at h1
    exact Prod.ext h1.symm heq
  refine ⟨?_, hperm.nodup_iff.2 hvals, hids, hi.2.2.1, fun id => hids.mem_iff, rfl, ?_⟩
  · intro r' seed'
    refine ⟨rfl, ?_⟩
    have := (FindAll_perm r' seed').length_eq
    rw [this, List.length_map]
    rfl
  · intro n hn
    refine ⟨?_, hids.nodup_iff.2 hi.2.2.1⟩
    rw [hperm.length_eq, List.length_map]
    exact hn.len

theorem twoBooks_created : CreatedN 2 twoBooks.r twoBooks.heap :=
  CreatedN.create 1 sampleUUID2
    (CreatedN.create 0 sampleUUID1 (CreatedN.new callerRecords) (by decide) (by decide)
      (by decide))
    (by decide) (by decide) (by decide)

/-- An example of the above: after two successful creations from the caller's own records
`FindAll` returns two records with distinct IDs. -/
theorem FindAll_snapshot_witness :
    (twoBooks.r.FindAll 1).1.length = 2
      ∧ ((twoBooks.r.FindAll 1).1.map fun p => (twoBooks.heap.read p).ID).Nodup :=
  (FindAll_snapshot twoBooks.r twoBooks.heap 1 twoBooks_reachable).2.2.2.2.2.2 2
    twoBooks_created

/-! ## Generated identifiers -/

theorem hextable_getD_inj :
    ∀ i < 16, ∀ j < 16, hextable.getD i '0' = hextable.getD j '0' → i = j := by
  decide

theorem hexEncode_inj (a b : List (Fin 256)) (hl : a.length = b.length)
    (he : hexEncode a = hexEncode b) : a = b := by
  induction a generalizing b with
  | nil =>
    cases b with
    | nil => rfl
    | cons w b => simp at hl
  | cons v a ih =>
    cases b with
    | nil => simp at hl
    | cons w b =>
      simp only [hexEncode, List.cons.injEq] at he
      obtain ⟨h1, h2, h3⟩ := he
      have hv := v.isLt
      have hw := w.isLt
      have e1 := hextable_getD_inj (v.val / 16) (by omega) (w.val / 16) (by omega) h1
      have e2 := hextable_getD_inj (v.val % 16) (Nat.mod_lt _ (by omega)) (w.val % 16)
        (Nat.mod_lt _ (by omega)) h2
      have hvw : v = w := Fin.ext (by omega)
      rw [hvw, ih b (by simpa using hl) h3]

/-- Two identifiers have the same string form only if they are the same identifier. -/
theorem UUID.String_inj (u u' : UUID) (h : u.String = u'.String) : u = u' := by
  obtain ⟨l, hl⟩ := u
  obtain ⟨l', hl'⟩ := u'
  simp only [UUID.String] at h
  have len1 : ∀ (a b : List (Fin 256)), a.length = b.length →
      ('-' :: hexEncode a).length = ('-' :: hexEncode b).length := by
    intro a b hab
    rw [List.length_cons, List.length_cons, hexEncode_length, hexEncode_length, hab]
  have ld : ∀ n, (l.drop n).length = (l'.drop n).length := by
    intro n
    rw [List.length_drop, List.length_drop, hl, hl']
  have lt : ∀ n m, ((l.drop n).take m).length = ((l'.drop n).take m).length := by
    intro n m
    rw [List.length_take, List.length_take, ld n]
  obtain ⟨h, h5⟩ := List.append_inj' h (len1 _ _ (ld 10))
  obtain ⟨h, h4⟩ := List.append_inj' h (len1 _ _ (lt 8 2))
  obtain ⟨h, h3⟩ := List.append_inj' h (len1 _ _ (lt 6 2))
  obtain ⟨h1, h2⟩ := List.append_inj' h (len1 _ _ (lt 4 2))
  have t1 := hexEncode_inj _ _ (by rw [List.length_take, List.length_take, hl, hl']) h1
  have t2 := hexEncode_inj _ _ (lt 4 2) (List.cons.inj h2).2
  have t3 := hexEncode_inj _ _ (lt 6 2) (List.cons.inj h3).2
  have t4 := hexEncode_inj _ _ (lt 8 2) (List.cons.inj h4).2
  have t5 := hexEncode_inj _ _ (ld 10) (List.cons.inj h5).2
  have split : ∀ a : List (Fin 256), a = a.take 4 ++ ((a.drop 4).take 2
      ++ ((a.drop 6).take 2 ++ ((a.drop 8).take 2 ++ a.drop 10))) := by
    intro a
    have e10 : a.drop 10 = (a.drop 8).drop 2 := by rw [List.drop_drop]
    have e8 : a.drop 8 = (a.drop 6).drop 2 := by rw [List.drop_drop]
    have e6 : a.drop 6 = (a.drop 4).drop 2 := by rw [List.drop_drop]
    rw [e10, List.take_append_drop, e8, List.take_append_drop, e6, List.take_append_drop,
      List.take_append_drop]
  have hll : l = l' := by
    rw [split l, split l', t1, t2, t3, t4, t5]
  subst hll
  rfl

/-! ## The service: `UpdateBook` and `CreateBook` -/

theorem Heap.write_write (h : Heap) (a : Addr) (b c : Book) :
    (h.write a b).write a c = h.write a c := by
  simp [Heap.write, List.set_set]

theorem Update_of_alias (r : InMemoryBookRepository) (h : Heap) (p : Addr)
    (hg : r.books.get (h.read p).ID = some p) :
    r.Update h p =
      { err := none,
        r := { books := r.books.set (h.read p).ID h.length, isbn := r.isbn },
        heap := h ++ [h.read p] } :=
  Update_of_sameISBN r h p p hg rfl

theorem FindByID_not_nil_nil (r : InMemoryBookRepository) (id : GoString) :
    r.FindByID id ≠ (none, none) := by
  unfold InMemoryBookRepository.FindByID
  cases r.books.get id <;> simp

/-- What `UpdateBook` does when `id` is stored at a live pointer `p` to a record whose ID is
`id`: the assignments land in the stored record itself, `Update` then finds that same record
as `existing`, sees equal ISBNs, and stores a copy under `id` without touching the `isbn`
index. -/
theorem UpdateBook_of_stored (r : InMemoryBookRepository) (h : Heap) (now : Time)
    (id title author isbn : GoString) (p : Addr)
    (hg : r.books.get id = some p) (hid : (h.read p).ID = id) (hv : h.valid p) :
    BookService.UpdateBook r h now id title author isbn =
      (some p,
        { err := none,
          r := { books := r.books.set id h.length, isbn := r.isbn },
          heap := h.write p (BookService.assigned (h.read p) now title author isbn)
                    ++ [BookService.assigned (h.read p) now title author isbn] }) := by
  have hv' : p < h.length := hv
  have hu := Update_of_alias r
    (h.write p (BookService.assigned (h.read p) now title author isbn)) p
    (by rw [Heap.read_write_self _ _ _ hv]; show r.books.get (h.read p).ID = some p
        rw [hid]; exact hg)
  rw [Heap.read_write_self _ _ _ hv, Heap.length_write] at hu
  have hid' : (BookService.assigned (h.read p) now title author isbn).ID = id := hid
  rw [hid'] at hu
  unfold BookService.UpdateBook
  rw [FindByID_of_get r id p hg]
  by_cases h1 : title = [] <;> by_cases h2 : author = [] <;> by_cases h3 : isbn = [] <;>
    simp [h1, h2, h3, Heap.write_write, Heap.read_write_self, hv'] <;>
    (simp [BookService.assigned, h1, h2, h3] at hu; simp [hu, BookService.assigned, h3, h2, h1])

theorem UpdateBook_reads (h : Heap) (p : Addr) (b : Book) (hv : h.valid p) :
    Heap.read (h.write p b ++ [b]) p = b ∧ Heap.read (h.write p b ++ [b]) h.length = b := by
  have h1 := Heap.read_alloc_old (h.write p b) b p (by rw [Heap.length_write]; exact hv)
  have h2 := Heap.read_alloc_new (h.write p b) b
  simp only [Heap.alloc, Heap.length_write] at h1 h2
  exact ⟨by rw [h1, Heap.read_write_self h p b hv], h2⟩

/-- C15, as stated, fails on the timestamp: when the clock reading taken by `UpdateBook`
equals the `UpdatedAt` stored for the record (here both are 2), the call succeeds and the
returned record's `UpdatedAt` is that same reading, not a strictly later one. -/
theorem UpdateBook_same_clock_reading_counterexample :
    twoBooks.r.FindByID sampleUUID2.String = (some 4, none)
    ∧ (twoBooks.heap.read 4).UpdatedAt = 2
    ∧ (BookService.UpdateBook twoBooks.r twoBooks.heap 2 sampleUUID2.String
        "New Title".toList [] []).1 = some 4
    ∧ (BookService.UpdateBook twoBooks.r twoBooks.heap 2 sampleUUID2.String
        "New Title".toList [] []).2.err = none
    ∧ ((BookService.UpdateBook twoBooks.r twoBooks.heap 2 sampleUUID2.String
        "New Title".toList [] []).2.heap.read 4).UpdatedAt = 2
    ∧ ¬ ((twoBooks.heap.read 4).UpdatedAt
          < ((BookService.UpdateBook twoBooks.r twoBooks.heap 2 sampleUUID2.String
              "New Title".toList [] []).2.heap.read 4).UpdatedAt) := by
  decide

/-- C15, amended: for every record stored under `id` (at a live pointer `p`, the record
carrying `id` as its ID) and every non-empty `title`, `UpdateBook(id, title, "", "")` succeeds and
returns a record whose `Title` is the new title, whose `Author`, `ISBN`, `ID` and
`CreatedAt` are those of the previously stored record, and whose `UpdatedAt` is the clock
reading `now` taken by the call, hence strictly later than the prior `UpdatedAt` whenever
that reading is later than it; the record then stored under `id` is equal to the returned
one. Whenever `UpdateBook` succeeds, a field whose argument is the empty string is left
unchanged. -/
theorem UpdateBook_title_only (r : InMemoryBookRepository) (h : Heap) (now : Time)
    (id title : GoString) (p : Addr)
    (hg : r.books.get id = some p) (hid : (h.read p).ID = id) (hv : h.valid p)
    (ht : title ≠ []) :
    (BookService.UpdateBook r h now id title [] []).1 = some p
    ∧ (BookService.UpdateBook r h now id title [] []).2.err = none
    ∧ (BookService.UpdateBook r h now id title [] []).2.heap.read p
        = { h.read p with Title := title, UpdatedAt := now }
    ∧ ((BookService.UpdateBook r h now id title [] []).2.heap.read p).Title = title
    ∧ ((BookService.UpdateBook r h now id title [] []).2.heap.read p).Author = (h.read p).Author
    ∧ ((BookService.UpdateBook r h now id title [] []).2.heap.read p).ISBN = (h.read p).ISBN
    ∧ ((BookService.UpdateBook r h now id title [] []).2.heap.read p).ID = (h.read p).ID
    ∧ ((BookService.UpdateBook r h now id title [] []).2.heap.read p).CreatedAt
        = (h.read p).CreatedAt
    ∧ ((BookService.UpdateBook r h now id title [] []).2.heap.read p).UpdatedAt = now
    ∧ ((h.read p).UpdatedAt < now →
        (h.read p).UpdatedAt
          < ((BookService.UpdateBook r h now id title [] []).2.heap.read p).UpdatedAt)
    ∧ (∃ q, (BookService.UpdateBook r h now id title [] []).2.r.FindByID id = (some q, none)
        ∧ (BookService.UpdateBook r h now id title [] []).2.heap.read q
            = (BookService.UpdateBook r h now id title [] []).2.heap.read p)
    ∧ (∀ title' author' isbn' q o,
        BookService.UpdateBook r h now id title' author' isbn' = (some q, o) → o.err = none →
        (title' = [] → (o.heap.read q).Title = (h.read p).Title)
        ∧ (author' = [] → (o.heap.read q).Author = (h.read p).Author)
        ∧ (isbn' = [] → (o.heap.read q).ISBN = (h.read p).ISBN)) := by
  have hrd := UpdateBook_reads h p (BookService.assigned (h.read p) now title [] []) hv
  have hb : BookService.assigned (h.read p) now title [] []
      = { h.read p with Title := title, UpdatedAt := now } := by
    simp [BookService.assigned, ht]
  have hU := UpdateBook_of_stored r h now id title [] [] p hg hid hv
  have hread : (BookService.UpdateBook r h now id title [] []).2.heap.read p
      = { h.read p with Title := title, UpdatedAt := now } := by
    rw [hU]
    show Heap.read (_ ++ [_]) p = _
    rw [hrd.1, hb]
  have hcopy : (BookService.UpdateBook r h now id title [] []).2.heap.read h.length
      = { h.read p with Title := title, UpdatedAt := now } := by
    rw [hU]
    show Heap.read (_ ++ [_]) h.length = _
    rw [hrd.2, hb]
  refine ⟨by rw [hU], by rw [hU], hread, by rw [hread], by rw [hread], by rw [hread],
    by rw [hread], by rw [hread], by rw [hread], fun hlt => by rw [hread]; exact hlt,
    ⟨h.length, ?_, by rw [hread, hcopy]⟩, ?_⟩
  · rw [hU]
    exact FindByID_of_get _ _ _ (GoMap.get_set_self _ _ _)
  · intro title' author' isbn' q o heq _
    rw [UpdateBook_of_stored r h now id title' author' isbn' p hg hid hv] at heq
    have hq : p = q := Option.some.inj (congrArg Prod.fst heq)
    have ho := congrArg Prod.snd heq
    simp only at ho
    subst hq
    have hr' : o.heap.read p = BookService.assigned (h.read p) now title' author' isbn' := by
      rw [← ho]
      exact (UpdateBook_reads h p _ hv).1
    rw [hr']
    refine ⟨?_, ?_, ?_⟩ <;> intro he <;> simp [BookService.assigned, he]

/-- C15 (amended) at a concrete input: a title-only update of the second of two books at
clock reading 9. -/
theorem UpdateBook_title_only_witness :
    (BookService.UpdateBook twoBooks.r twoBooks.heap 9 sampleUUID2.String
        "New Title".toList [] []).2.heap.read 4
      = { twoBooks.heap.read 4 with Title := "New Title".toList, UpdatedAt := 9 } :=
  (UpdateBook_title_only twoBooks.r twoBooks.heap 9 sampleUUID2.String "New Title".toList 4
    (by decide) (by decide) (by decide) (by decide)).2.2.1

/-- C19, as stated, fails for the repository's `Update`: in the store of two books, the
caller passes a record with the second book's ID and ISBN and another `CreatedAt` (7 in
place of 2); `Update` succeeds, and the record stored under that ID afterwards has
`CreatedAt` 7. -/
theorem Update_overwrites_CreatedAt_counterexample :
    twoBooks.r.FindByID (twoBooksAndRedated.read 5).ID = (some 4, none)
    ∧ (twoBooksAndRedated.read 4).CreatedAt = 2
    ∧ (twoBooks.r.Update twoBooksAndRedated 5).err = none
    ∧ (twoBooks.r.Update twoBooksAndRedated 5).r.FindByID (twoBooksAndRedated.read 5).ID
        = (some 6, none)
    ∧ ((twoBooks.r.Update twoBooksAndRedated 5).heap.read 6).CreatedAt = 7 := by
  decide

/-- C19, amended: in a consistent state, after a successful `Update(book)` the record
stored under `book.ID` is a copy of the argument; its `ID` is that of the record stored
there before, and its `CreatedAt` is the argument's, so it is the previous `CreatedAt`
whenever the caller passes that one. After a successful `BookService.UpdateBook(id, ...)`
on a record stored under `id` at a live pointer and carrying `id` as its ID, the record
stored under `id` has the same `ID` and the same `CreatedAt` as the record stored under `id`
before the call. -/
theorem Update_keeps_ID (r : InMemoryBookRepository) (h : Heap) (book : Addr)
    (hc : Consistent r h) (hok : (r.Update h book).err = none) :
    (∃ existing q, r.books.get (h.read book).ID = some existing
        ∧ (r.Update h book).r.books.get (h.read book).ID = some q
        ∧ (r.Update h book).heap.read q = h.read book
        ∧ ((r.Update h book).heap.read q).ID = (h.read existing).ID
        ∧ ((r.Update h book).heap.read q).CreatedAt = (h.read book).CreatedAt
        ∧ ((h.read book).CreatedAt = (h.read existing).CreatedAt →
            ((r.Update h book).heap.read q).CreatedAt = (h.read existing).CreatedAt))
    ∧ (∀ now id title author isbn p, r.books.get id = some p → (h.read p).ID = id →
        h.valid p → (BookService.UpdateBook r h now id title author isbn).2.err = none →
        ∃ q, (BookService.UpdateBook r h now id title author isbn).2.r.books.get id = some q
          ∧ ((BookService.UpdateBook r h now id title author isbn).2.heap.read q).ID
              = (h.read p).ID
          ∧ ((BookService.UpdateBook r h now id title author isbn).2.heap.read q).CreatedAt
              = (h.read p).CreatedAt) := by
  constructor
  · cases hg : r.books.get (h.read book).ID with
    | none =>
      rw [Update_of_absent r h book hg] at hok
      cases hok
    | some existing =>
      have hE := (hc.2 _ _ hg).1
      have hnew := Heap.read_alloc_new h (h.read book)
      simp only [Heap.alloc] at hnew
      have key : ∀ isbn', r.Update h book =
          { err := none, r := { books := r.books.set (h.read book).ID h.length, isbn := isbn' },
            heap := h ++ [h.read book] } →
          ∃ existing' q, some existing = some existing'
            ∧ (r.Update h book).r.books.get (h.read book).ID = some q
            ∧ (r.Update h book).heap.read q = h.read book
            ∧ ((r.Update h book).heap.read q).ID = (h.read existing').ID
            ∧ ((r.Update h book).heap.read q).CreatedAt = (h.read book).CreatedAt
            ∧ ((h.read book).CreatedAt = (h.read existing').CreatedAt →
                ((r.Update h book).heap.read q).CreatedAt = (h.read existing').CreatedAt) := by
        intro isbn' hU
        rw [hU]
        refine ⟨existing, h.length, rfl, GoMap.get_set_self _ _ _, hnew, ?_, ?_, ?_⟩
        · show (Heap.read (h ++ [h.read book]) h.length).ID = _
          rw [hnew, hE]
        · show (Heap.read (h ++ [h.read book]) h.length).CreatedAt = _
          rw [hnew]
        · intro heq
          show (Heap.read (h ++ [h.read book]) h.length).CreatedAt = _
          rw [hnew, heq]
      by_cases hne : (h.read existing).ISBN = (h.read book).ISBN
      · exact key _ (Update_of_sameISBN r h book existing hg hne)
      · cases hk : r.isbn.get (h.read book).ISBN with
        | some v =>
          rw [Update_of_conflict r h book existing hg hne (by rw [hk]; rfl)] at hok
          cases hok
        | none => exact key _ (Update_of_newISBN r h book existing hg hne hk)
  · intro now id title author isbn p hg hid hv _
    rw [UpdateBook_of_stored r h now id title author isbn p hg hid hv]
    refine ⟨h.length, GoMap.get_set_self _ _ _, ?_, ?_⟩
    · show (Heap.read (_ ++ [_]) h.length).ID = _
      rw [(UpdateBook_reads h p _ hv).2]
      rfl
    · show (Heap.read (_ ++ [_]) h.length).CreatedAt = _
      rw [(UpdateBook_reads h p _ hv).2]
      rfl

/-- C19 (amended) at a concrete input: the second of two books is updated from the
caller's record `moved`, which carries the original `CreatedAt`. -/
theorem Update_keeps_ID_witness :
    ∃ existing q, twoBooks.r.books.get (twoBooksAndMoved.read 5).ID = some existing
      ∧ (twoBooks.r.Update twoBooksAndMoved 5).r.books.get (twoBooksAndMoved.read 5).ID = some q
      ∧ (twoBooks.r.Update twoBooksAndMoved 5).heap.read q = twoBooksAndMoved.read 5
      ∧ ((twoBooks.r.Update twoBooksAndMoved 5).heap.read q).ID
          = (twoBooksAndMoved.read existing).ID
      ∧ ((twoBooks.r.Update twoBooksAndMoved 5).heap.read q).CreatedAt
          = (twoBooksAndMoved.read 5).CreatedAt
      ∧ ((twoBooksAndMoved.read 5).CreatedAt = (twoBooksAndMoved.read existing).CreatedAt →
          ((twoBooks.r.Update twoBooksAndMoved 5).heap.read q).CreatedAt
            = (twoBooksAndMoved.read existing).CreatedAt) :=
  (Update_keeps_ID twoBooks.r twoBooksAndMoved 5 twoBooksAndMoved_reachable.storeInv.1
    (by decide)).1

theorem CreateBook_of_ok (r : InMemoryBookRepository) (h : Heap) (now : Time) (u : UUID)
    (title author isbn : GoString) (b : Book) (hnew : NewBook now title author isbn = .ok b)
    (hk : r.isbn.get b.ISBN = none) :
    BookService.CreateBook r h now u title author isbn =
      (some h.length,
        { err := none,
          r := { books := r.books.set u.String (h ++ [b]).length,
                 isbn := r.isbn.set b.ISBN u.String },
          heap := (h ++ [b]).write h.length { b with ID := u.String }
                    ++ [{ b with ID := u.String }] }) := by
  have hrd := Heap.read_alloc_new h b
  simp only [Heap.alloc] at hrd
  have hv : Heap.valid (h ++ [b]) h.length := by
    show h.length < (h ++ [b]).length
    simp
  have hC := Create_of_isbn_absent r (h ++ [b]) h.length u hv (by rw [hrd]; exact hk)
  rw [hrd] at hC
  unfold BookService.CreateBook
  rw [hnew]
  simp only [Heap.alloc, hC]

/-- C17, amended: for every valid triple, every store whose `isbn` index does not hold the
normalized ISBN, and whatever identifier `u` the call of `uuid.New()` returns, `CreateBook`
succeeds and returns a record whose `ISBN` is the trimmed `isbn` with its hyphens removed
(it contains no hyphen), whose `Title` and `Author` are the trimmed arguments, and whose
`ID` is the string form of `u`: non-empty, 36 characters long, and equal to the string form
of an identifier `u'` exactly when `u` is `u'`. `FindByID` of that ID returns a stored
record equal to the returned one. -/
theorem CreateBook_spec (r : InMemoryBookRepository) (h : Heap) (now : Time) (u : UUID)
    (title author isbn : GoString)
    (ht : validateTitle title = none) (ha : validateAuthor author = none)
    (hi : validateISBN isbn = none)
    (hk : r.isbn.get (normalizeISBN isbn) = none) :
    ∃ p, (BookService.CreateBook r h now u title author isbn).1 = some p
      ∧ (BookService.CreateBook r h now u title author isbn).2.err = none
      ∧ (BookService.CreateBook r h now u title author isbn).2.heap.read p
          = { ID := u.String, Title := stringsTrimSpace title,
              Author := stringsTrimSpace author,
              ISBN := (stringsTrimSpace isbn).filter (fun c => decide (c ≠ '-')),
              CreatedAt := now, UpdatedAt := now }
      ∧ '-' ∉ ((BookService.CreateBook r h now u title author isbn).2.heap.read p).ISBN
      ∧ ((BookService.CreateBook r h now u title author isbn).2.heap.read p).ID = u.String
      ∧ ((BookService.CreateBook r h now u title author isbn).2.heap.read p).ID ≠ []
      ∧ ((BookService.CreateBook r h now u title author isbn).2.heap.read p).ID.length = 36
      ∧ (∀ u' : UUID,
          ((BookService.CreateBook r h now u title author isbn).2.heap.read p).ID = u'.String
            ↔ u = u')
      ∧ ∃ q, (BookService.CreateBook r h now u title author isbn).2.r.FindByID
                ((BookService.CreateBook r h now u title author isbn).2.heap.read p).ID
              = (some q, none)
          ∧ (BookService.CreateBook r h now u title author isbn).2.heap.read q
              = (BookService.CreateBook r h now u title author isbn).2.heap.read p := by
  obtain ⟨b, hnew⟩ : ∃ b, NewBook now title author isbn = .ok b :=
    ⟨_, (NewBook_eq_ok_iff _ _ _ _ _).2 ⟨ht, ha, hi, rfl⟩⟩
  obtain ⟨_, _, _, hbd⟩ := (NewBook_eq_ok_iff _ _ _ _ _).1 hnew
  have hnorm : normalizeISBN isbn = (stringsTrimSpace isbn).filter (fun c => decide (c ≠ '-')) := by
    unfold normalizeISBN
    rw [stringsReplaceAll_nil_eq_filter]
  have hbk : r.isbn.get b.ISBN = none := by rw [hbd]; exact hk
  have hU := CreateBook_of_ok r h now u title author isbn b hnew hbk
  have hv : Heap.valid (h ++ [b]) h.length := by
    show h.length < (h ++ [b]).length
    simp
  have hreads := UpdateBook_reads (h ++ [b]) h.length { b with ID := u.String } hv
  have hread : (BookService.CreateBook r h now u title author isbn).2.heap.read h.length
      = { ID := u.String, Title := stringsTrimSpace title, Author := stringsTrimSpace author,
          ISBN := (stringsTrimSpace isbn).filter (fun c => decide (c ≠ '-')),
          CreatedAt := now, UpdatedAt := now } := by
    rw [hU, ← hnorm]
    show Heap.read (_ ++ [_]) h.length = _
    rw [hreads.1, hbd]
  refine ⟨h.length, by rw [hU], by rw [hU], hread, ?_, by rw [hread], ?_, ?_, ?_, ?_⟩
  · rw [hread]
    simp [List.mem_filter]
  · rw [hread]; exact u.String_ne_nil
  · rw [hread]; exact u.String_length
  · intro u'
    rw [hread]
    exact ⟨fun he => UUID.String_inj u u' he, fun he => by rw [he]⟩
  · rw [hread]
    refine ⟨(h ++ [b]).length, ?_, ?_⟩
    · rw [hU]
      exact FindByID_of_get _ _ _ (GoMap.get_set_self _ _ _)
    · rw [hU, ← hnorm]
      show Heap.read (_ ++ [_]) (h ++ [b]).length = _
      rw [hreads.2, hbd]

/-- C17 (amended) at a concrete input: the service creates a book from a hyphenated ISBN
in a new store. -/
theorem CreateBook_spec_witness :
    ∃ p, served.1 = some p ∧ served.2.err = none
      ∧ served.2.heap.read p
          = { ID := sampleUUID1.String, Title := stringsTrimSpace "Domain-Driven Design".toList,
              Author := stringsTrimSpace "Eric Evans".toList,
              ISBN := (stringsTrimSpace "978-0-321-12521-5".toList).filter
                (fun c => decide (c ≠ '-')),
              CreatedAt := 5, UpdatedAt := 5 } :=
  have h := CreateBook_spec NewInMemoryBookRepository [] 5 sampleUUID1
    "Domain-Driven Design".toList "Eric Evans".toList "978-0-321-12521-5".toList
    (by decide) (by decide) (by decide) (by decide)
  h.elim fun p hp => ⟨p, hp.1, hp.2.1, hp.2.2.1⟩

/-! ## The canonical form of an ISBN -/

theorem perlDigit_hyphen : perlDigit '-' = false := by decide

theorem filter_hyphen_of_digits (n : GoString) (hd : ∀ c ∈ n, perlDigit c = true) :
    n.filter (fun c => decide (c ≠ '-')) = n := by
  apply List.filter_eq_self.2
  intro c hc
  have hne : c ≠ '-' := by
    intro he
    have := hd c hc
    rw [he, perlDigit_hyphen] at this
    cases this
  simp [hne]

/-- A string of 10 or 13 ASCII digits is accepted, and normalisation leaves it as it is. -/
theorem validateISBN_of_digits (n : GoString) (hd : ∀ c ∈ n, perlDigit c = true)
    (hl : n.length = 10 ∨ n.length = 13) :
    validateISBN n = none ∧ normalizeISBN n = n := by
  have hcls : ∀ c ∈ n, perlDigitOrHyphen c = true := by
    intro c hc
    simp [perlDigitOrHyphen, hd c hc]
  have htrim : stringsTrimSpace n = n :=
    stringsTrimSpace_eq_self n (fun c hc => perlDigitOrHyphen_not_space c (hcls c hc))
  have hnorm := normalizeISBN_of_class n hcls
  rw [filter_hyphen_of_digits n hd] at hnorm
  refine ⟨?_, hnorm.1⟩
  rw [validateISBN_eq_none_iff, htrim]
  refine ⟨?_, ?_, ?_⟩
  · intro he
    rw [he] at hl
    simp at hl
  · rw [isbnRegex_MatchString_iff]
    rcases hl with hl | hl
    · exact Or.inl ⟨hl, hd⟩
    · exact Or.inr (Or.inl ⟨hl, hd⟩)
  · rw [hnorm.2]; exact hl

/-- The normal form of an accepted string is 10 or 13 ASCII digits. -/
theorem normalizeISBN_digits (s : GoString) (h : validateISBN s = none) :
    (∀ c ∈ normalizeISBN s, perlDigit c = true)
      ∧ ((normalizeISBN s).length = 10 ∨ (normalizeISBN s).length = 13) := by
  obtain ⟨_, hm, hl⟩ := (validateISBN_eq_none_iff s).1 h
  have hcls := isbnRegex_match_class _ hm
  have hn := normalizeISBN_of_class _ hcls
  have hs : normalizeISBN s = (stringsTrimSpace s).filter (fun c => decide (c ≠ '-')) := by
    unfold normalizeISBN
    rw [stringsReplaceAll_nil_eq_filter]
  rw [hs]
  constructor
  · intro c hc
    rw [List.mem_filter] at hc
    have h1 := hcls c hc.1
    have h2 : c ≠ '-' := by simpa using hc.2
    simp only [perlDigitOrHyphen, Bool.or_eq_true, beq_iff_eq] at h1
    exact h1.resolve_right h2
  · rw [← hn.2]; exact hl

/-- C23: for every string `s` accepted by `validateISBN`, the normal form
`normalizeISBN s` is accepted too and normalising it again changes nothing. Hence when
`NewBook` succeeds on `(title, author, s)` with book `b`, it succeeds on
`(title, author, b.ISBN)` as well and returns the same ISBN (the same book, for the same
clock reading). -/
theorem normalizeISBN_stable (s : GoString) (h : validateISBN s = none) :
    validateISBN (normalizeISBN s) = none
      ∧ normalizeISBN (normalizeISBN s) = normalizeISBN s
      ∧ (∀ now title author b, NewBook now title author s = .ok b →
          validateISBN b.ISBN = none
          ∧ NewBook now title author b.ISBN = .ok b
          ∧ ∀ now', ∃ b', NewBook now' title author b.ISBN = .ok b' ∧ b'.ISBN = b.ISBN) := by
  obtain ⟨hd, hl⟩ := normalizeISBN_digits s h
  obtain ⟨hv, hn⟩ := validateISBN_of_digits (normalizeISBN s) hd hl
  refine ⟨hv, hn, ?_⟩
  intro now title author b hb
  obtain ⟨ht, ha, _, hbd⟩ := (NewBook_eq_ok_iff now title author s b).1 hb
  have hISBN : b.ISBN = normalizeISBN s := by rw [hbd]
  rw [hISBN]
  refine ⟨hv, ?_, ?_⟩
  · rw [NewBook_eq_ok_iff]
    exact ⟨ht, ha, hv, by rw [hn, hbd]⟩
  · intro now'
    refine ⟨_, (NewBook_eq_ok_iff now' title author (normalizeISBN s) _).2
      ⟨ht, ha, hv, rfl⟩, hn⟩

/-- C23 at a concrete input: the hyphenated ISBN `978-0-13-449416-6`, with white space
around it. -/
theorem normalizeISBN_stable_witness :
    validateISBN (normalizeISBN " 978-0-13-449416-6 ".toList) = none
      ∧ normalizeISBN (normalizeISBN " 978-0-13-449416-6 ".toList)
          = normalizeISBN " 978-0-13-449416-6 ".toList :=
  have h := normalizeISBN_stable " 978-0-13-449416-6 ".toList (by decide)
  ⟨h.1, h.2.1⟩

/-! ## Hyphenated ISBNs -/

theorem length_eq_digits_add_hyphens (s : GoString)
    (hc : ∀ c ∈ s, perlDigit c = true ∨ c = '-') :
    s.length = s.countP perlDigit + s.count '-' := by
  induction s with
  | nil => rfl
  | cons c cs ih =>
    have ih' := ih (fun d hd => hc d (List.mem_cons_of_mem _ hd))
    rcases hc c (List.mem_cons_self _ _) with h | h
    · have hne : c ≠ '-' := by
        intro he; rw [he, perlDigit_hyphen] at h; cases h
      rw [List.countP_cons_of_pos _ _ h, List.count_cons_of_ne hne.symm, List.length_cons]
      omega
    · subst h
      rw [List.countP_cons_of_neg _ _ (by rw [perlDigit_hyphen]; simp), List.count_cons_self,
        List.length_cons]
      omega

theorem digits_eq_filter_hyphen (s : GoString)
    (hc : ∀ c ∈ s, perlDigit c = true ∨ c = '-') :
    (s.filter (fun c => decide (c ≠ '-'))).length = s.countP perlDigit := by
  rw [List.countP_eq_length_filter]
  congr 1
  apply List.filter_congr
  intro c hm
  rcases hc c hm with h | h
  · have hne : c ≠ '-' := by
      intro he; rw [he, perlDigit_hyphen] at h; cases h
    simp [h, hne]
  · subst h
    simp [perlDigit_hyphen]

/-- C24: for every string `s` made only of ASCII digits and hyphens, with at least one
hyphen, `validateISBN s` succeeds exactly when `13 <= len(s) <= 17` and `s` holds exactly 10
or exactly 13 digits; an accepted `s` therefore has 3 to 7 hyphens with 10 digits or 1 to 4
hyphens with 13 digits. So `0-13-235088-2` is accepted and `0-132350882` is rejected,
although both normalise to `0132350882`. -/
theorem validateISBN_hyphenated (s : GoString)
    (hc : ∀ c ∈ s, perlDigit c = true ∨ c = '-') (hh : '-' ∈ s) :
    (validateISBN s = none ↔
        (13 ≤ len s ∧ len s ≤ 17 ∧ (s.countP perlDigit = 10 ∨ s.countP perlDigit = 13)))
    ∧ len s = s.length
    ∧ (validateISBN s = none →
        ((s.countP perlDigit = 10 ∧ 3 ≤ s.count '-' ∧ s.count '-' ≤ 7)
          ∨ (s.countP perlDigit = 13 ∧ 1 ≤ s.count '-' ∧ s.count '-' ≤ 4)))
    ∧ validateISBN "0-13-235088-2".toList = none
    ∧ validateISBN "0-132350882".toList ≠ none
    ∧ normalizeISBN "0-13-235088-2".toList = normalizeISBN "0-132350882".toList := by
  have hcls : ∀ c ∈ s, perlDigitOrHyphen c = true := by
    intro c hm
    simp only [perlDigitOrHyphen, Bool.or_eq_true, beq_iff_eq]
    exact hc c hm
  have htrim : stringsTrimSpace s = s :=
    stringsTrimSpace_eq_self s (fun c hm => perlDigitOrHyphen_not_space c (hcls c hm))
  have hlen : len s = s.length :=
    len_eq_length_of_ascii s (fun c hm => perlDigitOrHyphen_ascii c (hcls c hm))
  have hnorm := (normalizeISBN_of_class s hcls).2
  rw [digits_eq_filter_hyphen s hc] at hnorm
  have hsum := length_eq_digits_add_hyphens s hc
  have hpos : 1 ≤ s.count '-' := List.count_pos_iff.2 hh
  have hnd : ¬ ∀ c ∈ s, perlDigit c = true := by
    intro hall
    have := hall _ hh
    rw [perlDigit_hyphen] at this
    cases this
  have hiff : validateISBN s = none ↔
      (13 ≤ len s ∧ len s ≤ 17 ∧ (s.countP perlDigit = 10 ∨ s.countP perlDigit = 13)) := by
    rw [validateISBN_eq_none_iff, htrim, isbnRegex_MatchString_iff, hnorm, hlen]
    constructor
    · rintro ⟨_, hm, hd⟩
      rcases hm with ⟨_, hall⟩ | ⟨_, hall⟩ | ⟨h1, h2, _⟩
      · exact absurd hall hnd
      · exact absurd hall hnd
      · exact ⟨h1, h2, hd⟩
    · rintro ⟨h1, h2, hd⟩
      refine ⟨?_, Or.inr (Or.inr ⟨h1, h2, hc⟩), hd⟩
      intro he
      rw [he] at hh
      cases hh
  refine ⟨hiff, hlen, ?_, by decide, by decide, by decide⟩
  intro hv
  obtain ⟨h1, h2, hd⟩ := hiff.1 hv
  rw [hlen] at h1 h2
  rcases hd with hd | hd
  · exact Or.inl ⟨hd, by omega, by omega⟩
  · exact Or.inr ⟨hd, hpos, by omega⟩

/-- C24 at a concrete input: thirteen digits with four hyphens. -/
theorem validateISBN_hyphenated_witness :
    validateISBN "978-0-13-449416-6".toList = none
      ∧ "978-0-13-449416-6".toList.countP perlDigit = 13
      ∧ "978-0-13-449416-6".toList.count '-' = 4 :=
  have h := validateISBN_hyphenated "978-0-13-449416-6".toList (by decide) (by decide)
  ⟨h.1.2 (by decide), by decide, by decide⟩

/-! ## Release of an ISBN, and the order of `FindAll` -/

theorem Create_err_of_absent (r : InMemoryBookRepository) (h : Heap) (book : Addr) (u : UUID)
    (hk : r.isbn.get (h.read book).ISBN = none) :
    (r.Create h book u).err = none
      ∧ (r.Create h book u).err ≠ some ErrBookAlreadyExists := by
  have hc : (r.Create h book u).err = none := by
    simp [InMemoryBookRepository.Create, hk]
  refine ⟨hc, ?_⟩
  rw [hc]
  intro hh; cases hh

/-- C25: after a successful `Delete(id)` of a record with ISBN `x`, and after a successful
`Update` that changes the ISBN of the record `existing` from `x` to a different value, a
following `Create` of a book with ISBN `x` returns no error (in particular not
`ErrBookAlreadyExists`). This holds in every state, consistent or not. -/
theorem isbn_released (r : InMemoryBookRepository) (h : Heap) (u : UUID) :
    (∀ id p book2, r.books.get id = some p →
        (h.read book2).ISBN = (h.read p).ISBN →
        (r.Delete h id).err = none
        ∧ ((r.Delete h id).r.Create (r.Delete h id).heap book2 u).err = none
        ∧ ((r.Delete h id).r.Create (r.Delete h id).heap book2 u).err
            ≠ some ErrBookAlreadyExists)
    ∧ (∀ book existing book2, r.books.get (h.read book).ID = some existing →
        (h.read existing).ISBN ≠ (h.read book).ISBN →
        (r.Update h book).err = none →
        ((r.Update h book).heap.read book2).ISBN = (h.read existing).ISBN →
        ((r.Update h book).r.Create (r.Update h book).heap book2 u).err = none
        ∧ ((r.Update h book).r.Create (r.Update h book).heap book2 u).err
            ≠ some ErrBookAlreadyExists) := by
  constructor
  · intro id p book2 hg hx
    have hdel : r.Delete h id =
        { err := none,
          r := { books := r.books.delete id, isbn := r.isbn.delete (h.read p).ISBN },
          heap := h } := by
      simp [InMemoryBookRepository.Delete, hg]
    rw [hdel]
    refine ⟨rfl, Create_err_of_absent _ _ _ _ ?_⟩
    show (r.isbn.delete (h.read p).ISBN).get (h.read book2).ISBN = none
    rw [hx, GoMap.get_delete_self]
  · intro book existing book2 hg hne hok hx
    have hk : r.isbn.get (h.read book).ISBN = none := by
      cases hk : r.isbn.get (h.read book).ISBN with
      | none => rfl
      | some v =>
        rw [Update_of_conflict r h book existing hg hne (by rw [hk]; rfl)] at hok
        cases hok
    rw [Update_of_newISBN r h book existing hg hne hk] at hx ⊢
    simp only at hx
    refine Create_err_of_absent _ _ _ _ ?_
    show ((r.isbn.delete (h.read existing).ISBN).set (h.read book).ISBN
      (h.read book).ID).get (Heap.read (h ++ [h.read book]) book2).ISBN = none
    rw [hx, GoMap.get_set_ne _ _ _ _ hne, GoMap.get_delete_self]

/-- C25 at concrete inputs: in the store of two books, after the first book is deleted a
record with its ISBN is created again; and after the second book moves to another ISBN, a
record with its old ISBN is created. -/
theorem isbn_released_witness :
    ((twoBooks.r.Delete twoBooks.heap sampleUUID1.String).r.Create
        (twoBooks.r.Delete twoBooks.heap sampleUUID1.String).heap 2 sampleUUID1).err = none
      ∧ ((twoBooks.r.Update twoBooksAndMoved 5).r.Create
          (twoBooks.r.Update twoBooksAndMoved 5).heap 1 sampleUUID1).err = none :=
  ⟨((isbn_released twoBooks.r twoBooks.heap sampleUUID1).1 sampleUUID1.String 3 2
      (by decide) (by decide)).2.1,
   ((isbn_released twoBooks.r twoBooksAndMoved sampleUUID1).2 5 4 1
      (by decide) (by decide) (by decide) (by decide)).1⟩

/-- C9, evaluated on a store made by the service: after one `CreateBook` (ISBN
`9780321125215`) the two indexes agree, and `UpdateBook` then gives the record the valid,
unused ISBN `9780134494166`. The call returns no error. Because it assigns through the
pointer `FindByID` returned, `Update` sees equal ISBNs and leaves the `isbn` index alone: it
still maps `9780321125215` to the record's identifier and has no entry for `9780134494166`,
while the record stored under that identifier has ISBN `9780134494166`. Neither (a) nor (b)
of dual-index consistency holds in the state reached. -/
theorem UpdateBook_breaks_dual_index :
    served.2.err = none
    ∧ served.2.r.isbn.get "9780321125215".toList = some sampleUUID1.String
    ∧ served.2.r.books.get sampleUUID1.String = some 1
    ∧ (served.2.heap.read 1).ISBN = "9780321125215".toList
    ∧ validateISBN "9780134494166".toList = none
    ∧ servedMoved.2.err = none
    ∧ servedMoved.2.r.isbn.get "9780321125215".toList = some sampleUUID1.String
    ∧ servedMoved.2.r.isbn.get "9780134494166".toList = none
    ∧ servedMoved.2.r.books.get sampleUUID1.String = some 2
    ∧ (servedMoved.2.heap.read 2).ISBN = "9780134494166".toList
    ∧ ¬ IsbnEntriesBacked servedMoved.2.r servedMoved.2.heap
    ∧ ¬ BooksIndexed servedMoved.2.r servedMoved.2.heap
    ∧ ¬ Consistent servedMoved.2.r servedMoved.2.heap := by
  have hget : servedMoved.2.r.books.get sampleUUID1.String = some 2 := by decide
  have ha : ¬ IsbnEntriesBacked servedMoved.2.r servedMoved.2.heap := by
    intro hbk
    obtain ⟨p, hp, hI, _⟩ := hbk "9780321125215".toList sampleUUID1.String (by decide)
    rw [hget] at hp
    have hp2 : p = 2 := (Option.some.inj hp).symm
    subst hp2
    revert hI
    decide
  have hb : ¬ BooksIndexed servedMoved.2.r servedMoved.2.heap := by
    intro hbi
    have := (hbi sampleUUID1.String 2 hget).2
    revert this
    decide
  exact ⟨by decide, by decide, by decide, by decide, by decide, by decide, by decide,
    by decide, hget, by decide, ha, hb, fun hc => ha hc.1⟩

/-- C18, evaluated on a store made by the service: after `CreateBook` (ISBN
`9780321125215`), `UpdateBook` to the ISBN `9780134494166` and `DeleteBook`, all without
error, the store holds no record, yet the `isbn` index still maps `9780321125215` to the
deleted identifier, and `FindByISBN` of it returns a `nil` record together with a `nil`
error. -/
theorem FindByISBN_returns_nil_nil :
    served.2.err = none
    ∧ servedMoved.2.err = none
    ∧ servedDeleted.err = none
    ∧ servedDeleted.r.books.len = 0
    ∧ servedDeleted.r.isbn.get "9780321125215".toList = some sampleUUID1.String
    ∧ servedDeleted.r.books.get sampleUUID1.String = none
    ∧ servedDeleted.r.FindByISBN "9780321125215".toList = (none, none) := by
  decide

/-- C16, evaluated on the store holding `cleanCode`: the caller takes the pointer 3 that
`FindByID` returns, assigns another ISBN through it and passes it to `Create`, with a
generated identifier not yet in use. This second `Create` succeeds like the first, the two
ISBNs differ, and `books` has two entries; but `Create` wrote the new identifier into the
stored record itself, so both records `FindAll` returns carry the second identifier: the
IDs are not pairwise distinct, and the first key of `books` is the ID of no record. -/
theorem Create_through_stored_pointer_repeats_ID :
    oneBook.err = none
    ∧ oneBook.r.FindByID sampleUUID1.String = (some 3, none)
    ∧ oneBook.r.books.get sampleUUID2.String = none
    ∧ (oneBook.heap.read 3).ISBN ≠ (oneBookRetyped.read 3).ISBN
    ∧ createdTwice.err = none
    ∧ createdTwice.r.books.keys = [sampleUUID2.String, sampleUUID1.String]
    ∧ sampleUUID1.String ≠ sampleUUID2.String
    ∧ (∀ seed, (createdTwice.r.FindAll seed).1.length = 2
        ∧ (createdTwice.r.FindAll seed).2 = none
        ∧ ((createdTwice.r.FindAll seed).1.map fun p => (createdTwice.heap.read p).ID)
            = [sampleUUID2.String, sampleUUID2.String]
        ∧ ¬ ((createdTwice.r.FindAll seed).1.map fun p => (createdTwice.heap.read p).ID).Nodup
        ∧ sampleUUID1.String
            ∉ ((createdTwice.r.FindAll seed).1.map fun p => (createdTwice.heap.read p).ID)) := by
  refine ⟨by decide, by decide, by decide, by decide, by decide, by decide, by decide, ?_⟩
  intro seed
  have hperm := FindAll_perm createdTwice.r seed
  have hvals : createdTwice.r.books.entries.map Prod.snd = [4, 3] := by decide
  rw [hvals] at hperm
  have hlen : (createdTwice.r.FindAll seed).1.length = 2 := hperm.length_eq
  have hall : ∀ p ∈ (createdTwice.r.FindAll seed).1,
      (createdTwice.heap.read p).ID = sampleUUID2.String := by
    intro p hp
    have hm := hperm.mem_iff.1 hp
    simp only [List.mem_cons, List.mem_singleton, List.not_mem_nil, or_false] at hm
    rcases hm with hm | hm <;> subst hm <;> decide
  have hids : ((createdTwice.r.FindAll seed).1.map fun p => (createdTwice.heap.read p).ID)
      = [sampleUUID2.String, sampleUUID2.String] := by
    have hrep : ((createdTwice.r.FindAll seed).1.map fun p => (createdTwice.heap.read p).ID)
        = List.replicate (createdTwice.r.FindAll seed).1.length sampleUUID2.String := by
      apply List.eq_replicate_iff.2
      refine ⟨List.length_map _ _, ?_⟩
      intro b hb
      obtain ⟨p, hp, rfl⟩ := List.mem_map.1 hb
      exact hall p hp
    rw [hrep, hlen]
    rfl
  refine ⟨hlen, rfl, hids, ?_, ?_⟩
  · rw [hids]; decide
  · rw [hids]; decide

/-- C17, as stated, fails: `CreateBook` takes whatever identifier `uuid.New()` returns and
compares it with nothing. When the generator returns for a second, valid book with an ISBN
the store does not hold the identifier it returned for the first, the call succeeds and the
new record has the ID of the record created before it. -/
theorem CreateBook_reuses_identifier_counterexample :
    served.1 = some 0
    ∧ served.2.err = none
    ∧ (served.2.heap.read 0).ID = sampleUUID1.String
    ∧ validateTitle "Clean Code".toList = none
    ∧ validateAuthor "Robert Martin".toList = none
    ∧ validateISBN "0132350882".toList = none
    ∧ served.2.r.isbn.get (normalizeISBN "0132350882".toList) = none
    ∧ servedAgain.1 = some 2
    ∧ servedAgain.2.err = none
    ∧ (servedAgain.2.heap.read 2).ID = (served.2.heap.read 0).ID
    ∧ ¬ ((servedAgain.2.heap.read 2).ID ≠ (served.2.heap.read 0).ID) := by
  decide

end Solid
